import Mathlib

/-!
# Ephemeral canvas: sacred-geometry builders, random styles and lifecycle timers

A shallow embedding of `script.js`.  Numbers are the elements of a linearly ordered
field `α` with a floor function (`ℚ` for evaluation, `ℝ` for the statements that speak
about the real cosine and sine).  The members of the host's `Math` object that the
script calls are the fields of `MathEnv`; the values that successive calls of
`Math.random()` return are a stream of numbers read from a running index.
Template literals are built with a rendering of numbers passed as `str`.
-/

namespace EphemeralCanvas

/-! ## The host environment -/

/-- The members of the host's `Math` object used by the builders: `Math.PI`, `Math.cos`,
`Math.sin` and `Math.sqrt`. -/
structure MathEnv (α : Type) where
  PI : α
  cos : α → α
  sin : α → α
  sqrt : α → α

/-! ## The scene graph -/

/-- A coordinate pair, as the object literals with fields `x` and `y` of the script. -/
structure Point (α : Type) where
  x : α
  y : α

/-- One command of the `d` attribute of a path: `M x,y`, `L x,y` or `Z`. -/
inductive PathCmd (α : Type) where
  | M (x y : α)
  | L (x y : α)
  | Z

/-- The three kinds of child element the builders append to an `svg` element, with the
attributes the script sets on them. -/
inductive Primitive (α : Type) where
  | circle (cx cy r : α) (fill stroke : String) (strokeWidth : α)
  | line (x1 y1 x2 y2 : α) (stroke : String) (strokeWidth : α)
  | path (d : List (PathCmd α)) (fill stroke : String) (strokeWidth : α)

/-- The `svg` element a builder returns: its `viewBox` (min-x, min-y, width, height),
its `width` and `height` attributes and its children in document order. -/
structure Svg (α : Type) where
  viewBox : α × α × α × α
  width : α
  height : α
  children : List (Primitive α)

section Builders

variable {α : Type} [LinearOrderedField α]

/-- The helper `createSVGCircle(cx, cy, r, stroke, strokeWidth, fill)`. -/
def createSVGCircle (cx cy r : α) (stroke : String) (strokeWidth : α) (fill : String) :
    Primitive α :=
  Primitive.circle cx cy r fill stroke strokeWidth

/-- The helper `createSVGLine(x1, y1, x2, y2, stroke, strokeWidth)`. -/
def createSVGLine (x1 y1 x2 y2 : α) (stroke : String) (strokeWidth : α) : Primitive α :=
  Primitive.line x1 y1 x2 y2 stroke strokeWidth

/-- The builder `createVesicaPiscisSVG(size, strokeColor)`. -/
def createVesicaPiscisSVG (size : α) (strokeColor : String) : Svg α :=
  let padding := size * 0.18
  let viewBoxInnerSize := size - 2 * padding
  let radius := (viewBoxInnerSize * 0.95) / 3
  let offset := radius / 2
  let viewBoxCenter := viewBoxInnerSize / 2
  let circle1 := createSVGCircle (viewBoxCenter - offset) viewBoxCenter radius strokeColor
    (viewBoxInnerSize / 40) "none"
  let circle2 := createSVGCircle (viewBoxCenter + offset) viewBoxCenter radius strokeColor
    (viewBoxInnerSize / 40) "none"
  { viewBox := (0, 0, viewBoxInnerSize, viewBoxInnerSize)
    width := size
    height := size
    children := [circle1, circle2] }

/-- The builder `createEggOfLifeSVG(size, strokeColor)`. -/
def createEggOfLifeSVG (size : α) (strokeColor : String) : Svg α :=
  let padding := size * 0.15
  let viewBoxInnerSize := size - 2 * padding
  let radius := viewBoxInnerSize / 3
  let viewBoxCenter := viewBoxInnerSize / 2
  let circle1 := createSVGCircle viewBoxCenter (viewBoxCenter - radius) radius strokeColor
    (viewBoxInnerSize / 50) "none"
  let circle2 := createSVGCircle viewBoxCenter viewBoxCenter radius strokeColor
    (viewBoxInnerSize / 50) "none"
  let circle3 := createSVGCircle viewBoxCenter (viewBoxCenter + radius) radius strokeColor
    (viewBoxInnerSize / 50) "none"
  { viewBox := (0, 0, viewBoxInnerSize, viewBoxInnerSize)
    width := size
    height := size
    children := [circle1, circle2, circle3] }

/-- The builder `createSeedOfLifeSVG(size, strokeColor)`: the centre circle, then the
loop `for (let i = 0; i < 6; i++)`. -/
def createSeedOfLifeSVG (Math : MathEnv α) (size : α) (strokeColor : String) : Svg α :=
  let padding := size * 0.15
  let viewBoxInnerSize := size - 2 * padding
  let radius := viewBoxInnerSize / 6
  let viewBoxCenter := viewBoxInnerSize / 2
  let centerCircle := createSVGCircle viewBoxCenter viewBoxCenter radius strokeColor
    (viewBoxInnerSize / 50) "none"
  let surrounding := (List.range 6).map fun (i : ℕ) =>
    let angle := ((i : α) / 6) * Math.PI * 2
    let cx := viewBoxCenter + radius * Math.cos angle
    let cy := viewBoxCenter + radius * Math.sin angle
    createSVGCircle cx cy radius strokeColor (viewBoxInnerSize / 50) "none"
  { viewBox := (0, 0, viewBoxInnerSize, viewBoxInnerSize)
    width := size
    height := size
    children := [centerCircle] ++ surrounding }

/-- The builder `createFlowerOfLifeSVG(size, strokeColor)`: the centre circle and the
three loops of six circles each, in the order the script appends them. -/
def createFlowerOfLifeSVG (Math : MathEnv α) (size : α) (strokeColor : String) : Svg α :=
  let padding := size * 0.1
  let viewBoxInnerSize := size - 2 * padding
  let radius := (viewBoxInnerSize * 0.95) / 12
  let viewBoxCenter := viewBoxInnerSize / 2
  let addCircle := fun (cx cy : α) =>
    createSVGCircle cx cy radius strokeColor (viewBoxInnerSize / 60) "none"
  let layer1 := (List.range 6).map fun (i : ℕ) =>
    let angle := ((i : α) / 6) * Math.PI * 2
    let cx := viewBoxCenter + radius * Math.cos angle
    let cy := viewBoxCenter + radius * Math.sin angle
    addCircle cx cy
  let layer2 := (List.range 6).map fun (i : ℕ) =>
    let angle := ((i : α) / 6) * Math.PI * 2
    let angleOffset := angle + Math.PI / 6
    let cx := viewBoxCenter + 2 * radius * Math.cos angleOffset
    let cy := viewBoxCenter + 2 * radius * Math.sin angleOffset
    addCircle cx cy
  let layer3 := (List.range 6).map fun (i : ℕ) =>
    let angle := ((i : α) / 6) * Math.PI * 2
    let cx := viewBoxCenter + 3 * radius * Math.cos angle
    let cy := viewBoxCenter + 3 * radius * Math.sin angle
    addCircle cx cy
  { viewBox := (0, 0, viewBoxInnerSize, viewBoxInnerSize)
    width := size
    height := size
    children := [addCircle viewBoxCenter viewBoxCenter] ++ layer1 ++ layer2 ++ layer3 }

/-- The array `points` of `createMetatronsCubeSVG`: the centre, six points at `distance`
and six points at twice the distance, offset by thirty degrees. -/
def metatronPoints (Math : MathEnv α) (size : α) : List (Point α) :=
  let padding := size * 0.25
  let viewBoxInnerSize := size - 2 * padding
  let distance := (viewBoxInnerSize * 0.9) / 4
  let viewBoxCenter := viewBoxInnerSize / 2
  let inner := (List.range 6).map fun (i : ℕ) =>
    let angle := ((i : α) / 6) * Math.PI * 2
    ({ x := viewBoxCenter + distance * Math.cos angle
       y := viewBoxCenter + distance * Math.sin angle } : Point α)
  let outer := (List.range 6).map fun (i : ℕ) =>
    let angle := ((i : α) / 6) * Math.PI * 2 + Math.PI / 6
    ({ x := viewBoxCenter + distance * 2 * Math.cos angle
       y := viewBoxCenter + distance * 2 * Math.sin angle } : Point α)
  [{ x := viewBoxCenter, y := viewBoxCenter }] ++ inner ++ outer

/-- The element `points[i]` of an array of points (the origin stands for `undefined`,
which the loops of the script never reach). -/
def pointAt (points : List (Point α)) (i : ℕ) : Point α :=
  points.getD i { x := 0, y := 0 }

/-- The builder `createMetatronsCubeSVG(size, strokeColor)`: the nested loops
`for i < points.length`, `for j = i + 1; j < points.length` append one line each, then
`points.forEach` appends one small filled circle per point. -/
def createMetatronsCubeSVG (Math : MathEnv α) (size : α) (strokeColor : String) : Svg α :=
  let padding := size * 0.25
  let viewBoxInnerSize := size - 2 * padding
  let points := metatronPoints Math size
  let strokeWidth := viewBoxInnerSize / 100
  let lines := (List.range points.length).flatMap fun (i : ℕ) =>
    (List.range' (i + 1) (points.length - (i + 1))).map fun j =>
      createSVGLine (pointAt points i).x (pointAt points i).y
        (pointAt points j).x (pointAt points j).y strokeColor strokeWidth
  let circles := points.map fun p =>
    createSVGCircle p.x p.y (strokeWidth * 1.5) strokeColor 0 strokeColor
  { viewBox := (0, 0, viewBoxInnerSize, viewBoxInnerSize)
    width := size
    height := size
    children := lines ++ circles }

/-- The builder `createMerkabaSVG(size, strokeColor)`: two closed triangular paths and
seven connecting lines. -/
def createMerkabaSVG (Math : MathEnv α) (size : α) (strokeColor : String) : Svg α :=
  let padding := size * 0.15
  let viewBoxInnerSize := size - 2 * padding
  let viewBoxCenter := viewBoxInnerSize / 2
  let height := viewBoxInnerSize * 0.7
  let side := height / Math.sqrt 3
  let strokeWidth := viewBoxInnerSize / 60
  let p1_up : Point α := { x := viewBoxCenter, y := viewBoxCenter - height / 2 }
  let p2_up : Point α :=
    { x := viewBoxCenter - side / 2, y := viewBoxCenter + height / 2 - (height * 1 / 3) }
  let p3_up : Point α :=
    { x := viewBoxCenter + side / 2, y := viewBoxCenter + height / 2 - (height * 1 / 3) }
  let p1_down : Point α := { x := viewBoxCenter, y := viewBoxCenter + height / 2 }
  let p2_down : Point α :=
    { x := viewBoxCenter - side / 2, y := viewBoxCenter - height / 2 + (height * 1 / 3) }
  let p3_down : Point α :=
    { x := viewBoxCenter + side / 2, y := viewBoxCenter - height / 2 + (height * 1 / 3) }
  let pathUp := Primitive.path
    [PathCmd.M p1_up.x p1_up.y, PathCmd.L p2_up.x p2_up.y, PathCmd.L p3_up.x p3_up.y,
      PathCmd.Z] "none" strokeColor strokeWidth
  let pathDown := Primitive.path
    [PathCmd.M p1_down.x p1_down.y, PathCmd.L p2_down.x p2_down.y,
      PathCmd.L p3_down.x p3_down.y, PathCmd.Z] "none" strokeColor strokeWidth
  let line1 := createSVGLine p1_up.x p1_up.y p2_down.x p2_down.y strokeColor strokeWidth
  let line2 := createSVGLine p1_up.x p1_up.y p3_down.x p3_down.y strokeColor strokeWidth
  let line3 := createSVGLine p2_up.x p2_up.y p1_down.x p1_down.y strokeColor strokeWidth
  let line4 := createSVGLine p3_up.x p3_up.y p1_down.x p1_down.y strokeColor strokeWidth
  let line5 := createSVGLine p2_up.x p2_up.y p2_down.x p2_down.y strokeColor strokeWidth
  let line6 := createSVGLine p3_up.x p3_up.y p3_down.x p3_down.y strokeColor strokeWidth
  let line7 := createSVGLine p2_down.x p2_down.y p3_down.x p3_down.y strokeColor strokeWidth
  { viewBox := (0, 0, viewBoxInnerSize, viewBoxInnerSize)
    width := size
    height := size
    children := [pathUp, pathDown, line1, line2, line3, line4, line5, line6, line7] }

/-! ## Measuring a scene -/

/-- The coordinates of a primitive: the centre of a circle, the two endpoints of a line,
the vertices of a path. -/
def Primitive.coords : Primitive α → List (Point α)
  | Primitive.circle cx cy _ _ _ _ => [{ x := cx, y := cy }]
  | Primitive.line x1 y1 x2 y2 _ _ => [{ x := x1, y := y1 }, { x := x2, y := y2 }]
  | Primitive.path d _ _ _ => d.filterMap fun c =>
      match c with
      | PathCmd.M x y => some { x := x, y := y }
      | PathCmd.L x y => some { x := x, y := y }
      | PathCmd.Z => none

/-- The corners that bound a primitive when a circle is taken as the disc of its radius
around its centre: for a circle the two corners `(cx - r, cy - r)` and `(cx + r, cy + r)`
of its bounding box, for a line its endpoints, for a path its vertices. -/
def Primitive.extremes : Primitive α → List (Point α)
  | Primitive.circle cx cy r _ _ _ =>
      [{ x := cx - r, y := cy - r }, { x := cx + r, y := cy + r }]
  | p => p.coords

/-- The side `size - 2 * padding` of the inner square of a builder whose padding is the
fraction `frac` of `size`. -/
def innerSize (frac size : α) : α :=
  size - 2 * (size * frac)

/-- A point lies in the square with corners `(lo, lo)` and `(hi, hi)`. -/
def Point.InBox (q : Point α) (lo hi : α) : Prop :=
  lo ≤ q.x ∧ q.x ≤ hi ∧ lo ≤ q.y ∧ q.y ≤ hi

instance (q : Point α) (lo hi : α) : Decidable (q.InBox lo hi) := by
  unfold Point.InBox; infer_instance

/-- Every coordinate of every primitive of the scene lies in the square from `lo` to
`hi`. -/
def Svg.CoordsIn (s : Svg α) (lo hi : α) : Prop :=
  ∀ p ∈ s.children, ∀ q ∈ p.coords, q.InBox lo hi

/-- The figure, circles taken as discs, lies in the square from `lo` to `hi`. -/
def Svg.FigureIn (s : Svg α) (lo hi : α) : Prop :=
  ∀ p ∈ s.children, ∀ q ∈ p.extremes, q.InBox lo hi

/-- The horizontal and the vertical extent of the figure, circles taken as discs, are at
most `bound`: no two bounding corners are further apart than that in `x` or in `y`. -/
def Svg.ExtentAtMost (s : Svg α) (bound : α) : Prop :=
  ∀ p ∈ s.children, ∀ q ∈ p.extremes, ∀ p2 ∈ s.children, ∀ q2 ∈ p2.extremes,
    q.x - q2.x ≤ bound ∧ q.y - q2.y ≤ bound

/-- The scene has the square view box `0 0 side side` with `side > 0`, display width and
display height both equal to `size`, and every circle among its children has a radius
`> 0`. -/
def Svg.SquareScene (s : Svg α) (size side : α) : Prop :=
  0 < side ∧ s.viewBox = (0, 0, side, side) ∧ s.width = size ∧ s.height = size ∧
    ∀ p ∈ s.children, ∀ (cx cy r : α) (fill stroke : String) (strokeWidth : α),
      p = Primitive.circle cx cy r fill stroke strokeWidth → 0 < r

/-- The square of the distance between two points. -/
def distSq (p q : Point α) : α :=
  (p.x - q.x) ^ 2 + (p.y - q.y) ^ 2

/-- The cosine and sine of the environment take values in `[-1, 1]` and the square root
of three is at least one, as for the real functions. -/
def MathEnv.Bounded (Math : MathEnv α) : Prop :=
  (∀ a, -1 ≤ Math.cos a ∧ Math.cos a ≤ 1) ∧ (∀ a, -1 ≤ Math.sin a ∧ Math.sin a ≤ 1) ∧
    1 ≤ Math.sqrt 3

end Builders

end EphemeralCanvas

namespace EphemeralCanvas

/-! ## Random styles

`rand` is the stream of values returned by successive calls of `Math.random()` and `k`
the number of calls made so far; each function returns its result with the new count. -/

section RandomStyles

variable {α : Type} [LinearOrderedField α] [FloorRing α]

/-- The three numbers computed by `getRandomHSLColor` before it renders them. -/
structure HSLColor (α : Type) where
  hue : α
  saturation : α
  lightness : α

/-- The template literal `hsl(h, s%, l%)` of `getRandomHSLColor`. -/
def HSLColor.render (str : α → String) (c : HSLColor α) : String :=
  "hsl(" ++ str c.hue ++ ", " ++ str c.saturation ++ "%, " ++ str c.lightness ++ "%)"

/-- The constants `hue`, `saturation` and `lightness` of `getRandomHSLColor`; a range is
the pair of its entries `[0]` and `[1]`. -/
def randomHSL (rand : ℕ → α) (k : ℕ) (saturationRange lightnessRange : α × α) :
    HSLColor α × ℕ :=
  let hue : α := ((Int.floor (rand k * 360) : ℤ) : α)
  let saturation : α :=
    ((Int.floor (rand (k + 1) * (saturationRange.2 - saturationRange.1)) : ℤ) : α) +
      saturationRange.1
  let lightness : α :=
    ((Int.floor (rand (k + 2) * (lightnessRange.2 - lightnessRange.1)) : ℤ) : α) +
      lightnessRange.1
  ({ hue := hue, saturation := saturation, lightness := lightness }, k + 3)

/-- The function `getRandomHSLColor(saturationRange, lightnessRange)`. -/
def getRandomHSLColor (str : α → String) (rand : ℕ → α) (k : ℕ)
    (saturationRange lightnessRange : α × α) : String × ℕ :=
  let c := randomHSL rand k saturationRange lightnessRange
  (c.1.render str, c.2)

/-- The default value `[50, 100]` of the parameter `saturationRange`. -/
def defaultSaturationRange : α × α := (50, 100)

/-- The default value `[40, 80]` of the parameter `lightnessRange`. -/
def defaultLightnessRange : α × α := (40, 80)

/-- The function `getRandomSize()`. -/
def getRandomSize (rand : ℕ → α) (k : ℕ) : α × ℕ :=
  (((Int.floor (rand k * 150) : ℤ) : α) + 100, k + 1)

/-- The function `getRandomInitialTransform()`. -/
def getRandomInitialTransform (str : α → String) (rand : ℕ → α) (k : ℕ) : String × ℕ :=
  let scale : α := rand k * 0.4 + 0.05
  let rotate : α := ((Int.floor (rand (k + 1) * 1080) : ℤ) : α) - 540
  ("scale(" ++ str scale ++ ") rotate(" ++ str rotate ++ "deg)", k + 2)

/-- The function `getRandomFinalTransform()`. -/
def getRandomFinalTransform (str : α → String) (rand : ℕ → α) (k : ℕ) : String × ℕ :=
  let scale : α := rand k * 0.5 + 0.5
  let rotate : α := ((Int.floor (rand (k + 1) * 360) : ℤ) : α) - 180
  ("translate(-50%, -50%) scale(" ++ str scale ++ ") rotate(" ++ str rotate ++ "deg)",
    k + 2)

/-- The six kinds of filter operation, in the order `getRandomFilter` tries them. -/
inductive FilterKind where
  | hueRotate
  | blur
  | brightness
  | contrast
  | saturate
  | dropShadow
  deriving DecidableEq

/-- The fixed order of the six kinds. -/
def filterOrder : List FilterKind :=
  [FilterKind.hueRotate, FilterKind.blur, FilterKind.brightness, FilterKind.contrast,
    FilterKind.saturate, FilterKind.dropShadow]

/-- One entry pushed on the array `filters`: its kind and the number inside it. -/
structure FilterOp (α : Type) where
  kind : FilterKind
  value : α

/-- The template literal that `getRandomFilter` pushes for an operation. -/
def FilterOp.render (str : α → String) (op : FilterOp α) : String :=
  match op.kind with
  | FilterKind.hueRotate => "hue-rotate(" ++ str op.value ++ "deg)"
  | FilterKind.blur => "blur(" ++ str op.value ++ "px)"
  | FilterKind.brightness => "brightness(" ++ str op.value ++ ")"
  | FilterKind.contrast => "contrast(" ++ str op.value ++ ")"
  | FilterKind.saturate => "saturate(" ++ str op.value ++ ")"
  | FilterKind.dropShadow => "drop-shadow(0 0 " ++ str op.value ++ "px rgba(255,255,255,0.3))"

/-- One line `if (Math.random() < p) filters.push(...)` of `getRandomFilter`: the
inclusion draw is always made, the draw for the value only when the operation is
included. -/
def pushIf (rand : ℕ → α) (p : α) (kind : FilterKind) (value : α → α)
    (acc : List (FilterOp α) × ℕ) : List (FilterOp α) × ℕ :=
  if rand acc.2 < p then
    (acc.1 ++ [{ kind := kind, value := value (rand (acc.2 + 1)) }], acc.2 + 2)
  else (acc.1, acc.2 + 1)

/-- The array `filters` after the six conditional pushes of `getRandomFilter`, the first
of which reads `rand k`. -/
def filterPushes (rand : ℕ → α) (k : ℕ) : List (FilterOp α) × ℕ :=
  let acc : List (FilterOp α) × ℕ := ([], k)
  let acc := pushIf rand 0.7 FilterKind.hueRotate
    (fun u => ((Int.floor (u * 360) : ℤ) : α)) acc
  let acc := pushIf rand 0.5 FilterKind.blur (fun u => u * 1.5) acc
  let acc := pushIf rand 0.5 FilterKind.brightness (fun u => u * 0.5 + 0.75) acc
  let acc := pushIf rand 0.5 FilterKind.contrast (fun u => u * 0.5 + 0.75) acc
  let acc := pushIf rand 0.5 FilterKind.saturate (fun u => u * 1 + 0.9) acc
  let acc := pushIf rand 0.3 FilterKind.dropShadow (fun u => u * 10 + 5) acc
  acc

/-- The function `getRandomFilter()`. -/
def getRandomFilter (str : α → String) (rand : ℕ → α) (k : ℕ) : String × ℕ :=
  if rand k < 0.7 then
    let filters := filterPushes rand (k + 1)
    (if filters.1.length > 0 then " ".intercalate (filters.1.map (FilterOp.render str))
      else "none", filters.2)
  else ("none", k + 1)

end RandomStyles

end EphemeralCanvas

namespace EphemeralCanvas

/-! ## The page: elements, pending timers and the two click handlers

The state of the page is the clock, the `svg` elements created so far (an element is
named by its index), the children of `artContainer` in document order and the callbacks
registered with `setTimeout` that have not fired yet, in registration order.  The arrow
functions passed to `setTimeout` are the constructors of `Callback`, each with the
variables it closes over. -/

/-- The lifecycle states an instance passes through. -/
inductive LifecycleState where
  | Spawned
  | Settling
  | FadingOut
  | Removed
  deriving DecidableEq

/-- The fields of `svgElement.style` that the script assigns. -/
structure Style (α : Type) where
  left : String
  top : String
  filter : String
  opacity : α
  transform : String
  transitionDelay : String

/-- An `svg` element of the page: what the builder returned, its class list and its
inline style.  The field `lifecycle` is a record kept for the statements only, which no
handler reads: the lifecycle states the element has entered, oldest first. -/
structure Element (α : Type) where
  svg : Svg α
  classList : List String
  style : Style α
  lifecycle : List LifecycleState

/-- The arrow functions passed to `setTimeout`: the three of the click handler of
`artContainer` (the last argument of `settle` is the captured `finalTransform`) and the
two of the click handler of `clearButton`.  The first argument is the captured element. -/
inductive Callback where
  | settle (el : ℕ) (finalTransform : String)
  | fadeOut (el : ℕ)
  | remove (el : ℕ)
  | clearFade (el : ℕ)
  | clearRemove (el : ℕ)
  deriving DecidableEq

/-- The element a callback closes over. -/
def Callback.target : Callback → ℕ
  | Callback.settle el _ => el
  | Callback.fadeOut el => el
  | Callback.remove el => el
  | Callback.clearFade el => el
  | Callback.clearRemove el => el

/-- A pending timer: the time at which it is due and its callback. -/
structure Timer (α : Type) where
  fire : α
  callback : Callback

/-- The state of the page. -/
structure State (α : Type) where
  now : α
  elements : List (Element α)
  children : List ℕ
  timers : List (Timer α)

/-- What happens next: a click in the drawing area at time `t` at the position
`(clickX, clickY)` relative to the container, a click on the clear button at time `t`,
or the host firing the pending timer that is due first.  `rand` is the stream of values
that `Math.random()` returns while the handler or callback runs. -/
inductive Event (α : Type) where
  | click (t clickX clickY : α) (rand : ℕ → α)
  | clearAll (t : α)
  | timeout (rand : ℕ → α)

section Page

variable {α : Type} [LinearOrderedField α] [FloorRing α]

/-- The page before the first click. -/
def State.init : State α :=
  { now := 0, elements := [], children := [], timers := [] }

/-- The array `shapeFunctions` of the click handler. -/
def shapeFunctions (Math : MathEnv α) : List (α → String → Svg α) :=
  [createVesicaPiscisSVG, createEggOfLifeSVG, createSeedOfLifeSVG Math,
    createFlowerOfLifeSVG Math, createMerkabaSVG Math, createMetatronsCubeSVG Math]

/-- Apply `f` to the element with index `el`, if there is one. -/
def State.updateElement (s : State α) (el : ℕ) (f : Element α → Element α) : State α :=
  match s.elements[el]? with
  | some e => { s with elements := s.elements.set el (f e) }
  | none => s

/-- The opacity of the element with index `el`. -/
def State.opacity (s : State α) (el : ℕ) : Option α :=
  (s.elements[el]?).map (fun e => e.style.opacity)

/-- The transform of the element with index `el`. -/
def State.transform (s : State α) (el : ℕ) : Option String :=
  (s.elements[el]?).map (fun e => e.style.transform)

/-- The lifecycle record of the element with index `el`. -/
def State.lifecycle (s : State α) (el : ℕ) : Option (List LifecycleState) :=
  (s.elements[el]?).map (fun e => e.lifecycle)

/-- The result of `artContainer.querySelectorAll('.art-element')`: the children that
carry the class, in document order. -/
def State.liveInstances (s : State α) : List ℕ :=
  s.children.filter fun el =>
    match s.elements[el]? with
    | some e => e.classList.contains "art-element"
    | none => false

/-- The click handler of `artContainer`, run at time `s.now`.  It fails only when
`shapeFunctions[...]` is `undefined`, which calling it would turn into an exception. -/
def onClick (Math : MathEnv α) (str : α → String) (s : State α) (clickX clickY : α)
    (rand : ℕ → α) : Option (State α) :=
  let index := Int.floor (rand 0 * ((shapeFunctions Math).length : α))
  let randomShapeFunction :=
    if 0 ≤ index then (shapeFunctions Math)[index.toNat]? else none
  let size := getRandomSize rand 1
  let strokeColor := getRandomHSLColor str rand size.2 (70, 100) (60, 90)
  let initialTransform := getRandomInitialTransform str rand strokeColor.2
  let finalTransform := getRandomFinalTransform str rand initialTransform.2
  let filter := getRandomFilter str rand finalTransform.2
  match randomShapeFunction with
  | none => none
  | some build =>
    let svgElement : Element α :=
      { svg := build size.1 strokeColor.1
        classList := ["art-element"]
        style :=
          { left := str clickX ++ "px"
            top := str clickY ++ "px"
            filter := filter.1
            opacity := 0
            transform := initialTransform.1
            transitionDelay := "" }
        lifecycle := [LifecycleState.Spawned] }
    let el := s.elements.length
    let fadeOutDelay := rand filter.2 * 8000 + 6000
    let removeDelay := fadeOutDelay + 2000
    some
      { now := s.now
        elements := s.elements ++ [svgElement]
        children := s.children ++ [el]
        timers := s.timers ++
          [{ fire := s.now + 50, callback := Callback.settle el finalTransform.1 },
            { fire := s.now + fadeOutDelay, callback := Callback.fadeOut el },
            { fire := s.now + removeDelay, callback := Callback.remove el }] }

/-- The click handler of `clearButton`, run at time `s.now`: two timers for each live
instance, staggered by its index. -/
def onClearAll (s : State α) : State α :=
  { s with
    timers := s.timers ++ (s.liveInstances.enum.flatMap fun (p : ℕ × ℕ) =>
      [{ fire := s.now + (p.1 : α) * 30, callback := Callback.clearFade p.2 },
        { fire := s.now + ((p.1 : α) * 30 + 1500), callback := Callback.clearRemove p.2 }]) }

/-- The assignments a callback makes to the style of the element it closes over (a
callback of removal makes none), together with the lifecycle state it records. -/
def Callback.update (str : α → String) (rand : ℕ → α) : Callback → Element α → Element α
  | Callback.settle _ finalTransform => fun e =>
      { e with
        style := { e.style with
          opacity := rand 0 * 0.5 + 0.4
          transform := finalTransform
          transitionDelay := str (rand 1 * 0.5) ++ "s" }
        lifecycle := e.lifecycle ++ [LifecycleState.Settling] }
  | Callback.fadeOut _ => fun e =>
      { e with
        style := { e.style with
          opacity := 0
          transform := e.style.transform ++ " scale(0.7)" }
        lifecycle := e.lifecycle ++ [LifecycleState.FadingOut] }
  | Callback.remove _ => fun e =>
      { e with lifecycle := e.lifecycle ++ [LifecycleState.Removed] }
  | Callback.clearFade _ => fun e =>
      { e with
        style := { e.style with
          opacity := 0
          transform := e.style.transform ++ " scale(0.5)" }
        lifecycle := e.lifecycle ++ [LifecycleState.FadingOut] }
  | Callback.clearRemove _ => fun e =>
      { e with lifecycle := e.lifecycle ++ [LifecycleState.Removed] }

/-- The callback calls `remove()` on its element. -/
def Callback.detaches : Callback → Bool
  | Callback.remove _ => true
  | Callback.clearRemove _ => true
  | _ => false

/-- The body of a callback, run on the state `s`: the assignments to the element, then
`remove()`, which takes the element out of the children of its parent. -/
def runCallback (str : α → String) (s : State α) (rand : ℕ → α) (cb : Callback) : State α :=
  let s1 := s.updateElement cb.target (cb.update str rand)
  if cb.detaches then { s1 with children := s1.children.filter fun c => c ≠ cb.target }
  else s1

/-- Take the timer that is due first out of the list of pending timers; of two timers
due at the same time the one registered first goes first. -/
def popEarliest : List (Timer α) → Option (Timer α × List (Timer α))
  | [] => none
  | t :: ts =>
    match popEarliest ts with
    | none => some (t, [])
    | some (u, rest) => if u.fire < t.fire then some (u, t :: rest) else some (t, ts)

/-- One step of the page.  A click or a clear-all at time `t` needs `s.now ≤ t`, the
clock never runs backwards; a timeout needs a pending timer, fires the one that is due
first, not before it is due, and runs its callback. -/
def step (Math : MathEnv α) (str : α → String) (s : State α) : Event α → Option (State α)
  | Event.click t clickX clickY rand =>
    if s.now ≤ t then onClick Math str { s with now := t } clickX clickY rand else none
  | Event.clearAll t =>
    if s.now ≤ t then some (onClearAll { s with now := t }) else none
  | Event.timeout rand =>
    match popEarliest s.timers with
    | none => none
    | some (tm, rest) =>
      some (runCallback str { s with now := max s.now tm.fire, timers := rest } rand
        tm.callback)

/-- Run a sequence of events from a state. -/
def run (Math : MathEnv α) (str : α → String) : State α → List (Event α) → Option (State α)
  | s, [] => some s
  | s, e :: es =>
    match step Math str s e with
    | none => none
    | some s1 => run Math str s1 es

/-- Every value of a stream of draws lies in `[0, 1)`. -/
def UnitDraws (rand : ℕ → α) : Prop :=
  ∀ n, 0 ≤ rand n ∧ rand n < 1

/-- Every draw made during the event lies in `[0, 1)`. -/
def Event.UnitDraws : Event α → Prop
  | Event.click _ _ _ rand => EphemeralCanvas.UnitDraws rand
  | Event.clearAll _ => True
  | Event.timeout rand => EphemeralCanvas.UnitDraws rand

/-- The event is a click on the clear button. -/
def Event.isClearAll : Event α → Bool
  | Event.clearAll _ => true
  | _ => false

/-- The element is attached to the display surface. -/
def State.Attached (s : State α) (el : ℕ) : Prop :=
  el ∈ s.children

/-- The claim on lifecycles, for one state: every element has entered the states
`Spawned`, `Settling`, `FadingOut`, `Removed` in this order, each at most once and none
skipped, it is detached exactly when it has entered `Removed`, and a detached element
has no pending callback. -/
def State.LifecycleOrdered (s : State α) : Prop :=
  ∀ el, ∀ e, s.elements[el]? = some e →
    (e.lifecycle ≠ [] ∧
      e.lifecycle <+: [LifecycleState.Spawned, LifecycleState.Settling,
        LifecycleState.FadingOut, LifecycleState.Removed]) ∧
    (¬ s.Attached el ↔ e.lifecycle.getLast? = some LifecycleState.Removed) ∧
    (¬ s.Attached el → ∀ tm ∈ s.timers, tm.callback.target ≠ el)

/-- The pending timers whose callback closes over the element `el`, in registration
order. -/
def State.timersFor (s : State α) (el : ℕ) : List (Timer α) :=
  s.timers.filter fun tm => tm.callback.target = el

/-- The four stages of an instance that no clear-all has touched, given its lifecycle
record, whether it is attached and its pending timers: spawned with its three timers
pending in increasing order of time, settling with the last two, fading out with the
last one, or removed, detached and with none. -/
def NaturalStage (el : ℕ) (lifecycle : List LifecycleState) (attached : Prop)
    (pending : List (Timer α)) : Prop :=
  (lifecycle = [LifecycleState.Spawned] ∧ attached ∧
    ∃ (ft : String) (a b c : α),
      pending = [{ fire := a, callback := Callback.settle el ft },
        { fire := b, callback := Callback.fadeOut el },
        { fire := c, callback := Callback.remove el }] ∧ a < b ∧ b < c) ∨
  (lifecycle = [LifecycleState.Spawned, LifecycleState.Settling] ∧ attached ∧
    ∃ (b c : α),
      pending = [{ fire := b, callback := Callback.fadeOut el },
        { fire := c, callback := Callback.remove el }] ∧ b < c) ∨
  (lifecycle = [LifecycleState.Spawned, LifecycleState.Settling,
      LifecycleState.FadingOut] ∧ attached ∧
    ∃ (c : α), pending = [{ fire := c, callback := Callback.remove el }]) ∨
  (lifecycle = [LifecycleState.Spawned, LifecycleState.Settling, LifecycleState.FadingOut,
      LifecycleState.Removed] ∧ ¬ attached ∧ pending = [])

/-- The invariant of the pages that no clear-all has touched: every pending timer closes
over an existing element and every element is in one of the four natural stages. -/
def State.Natural (s : State α) : Prop :=
  (∀ tm ∈ s.timers, tm.callback.target < s.elements.length) ∧
  ∀ el e, s.elements[el]? = some e →
    NaturalStage el e.lifecycle (s.Attached el) (s.timersFor el)

/-- Every pending callback closes over an element that exists. -/
def State.Fresh (s : State α) : Prop :=
  ∀ tm ∈ s.timers, tm.callback.target < s.elements.length

/-- Where the instance `el`, created at time `t0` with the fade-out delay `f` and the
final transform `ft`, stands in the state `s`, told by which of its three timers are
still pending: none has fired and its opacity is `0`; the settle callback has fired, not
before `t0 + 50`, and its opacity is in `[0.4, 0.9)`; the fade-out callback has fired, not
before `t0 + f`, and its opacity is `0`; or the removal callback has fired, not before
`t0 + f + 2000`, and it is no longer a live instance. -/
def State.InstanceStage (s : State α) (el : ℕ) (t0 f : α) (ft : String) : Prop :=
  el < s.elements.length ∧
  ((s.timersFor el =
      [{ fire := t0 + 50, callback := Callback.settle el ft },
        { fire := t0 + f, callback := Callback.fadeOut el },
        { fire := t0 + (f + 2000), callback := Callback.remove el }] ∧
    s.opacity el = some 0 ∧ el ∈ s.liveInstances ∧ t0 ≤ s.now) ∨
  (s.timersFor el =
      [{ fire := t0 + f, callback := Callback.fadeOut el },
        { fire := t0 + (f + 2000), callback := Callback.remove el }] ∧
    (∃ o, s.opacity el = some o ∧ 0.4 ≤ o ∧ o < 0.9) ∧ el ∈ s.liveInstances ∧
    t0 + 50 ≤ s.now) ∨
  (s.timersFor el = [{ fire := t0 + (f + 2000), callback := Callback.remove el }] ∧
    s.opacity el = some 0 ∧ el ∈ s.liveInstances ∧ t0 + f ≤ s.now) ∨
  (s.timersFor el = [] ∧ el ∉ s.liveInstances ∧ t0 + (f + 2000) ≤ s.now))

/-- A rendering of rational numbers, used when the page is evaluated. -/
def ratStr (q : ℚ) : String :=
  if q.den = 1 then toString q.num else toString q.num ++ "/" ++ toString q.den

/-- A stand-in for the `Math` object over the rationals, used when the page is
evaluated on inputs that reach no trigonometric function. -/
def ratMath : MathEnv ℚ :=
  { PI := 355 / 113, cos := fun _ => 1, sin := fun _ => 0, sqrt := fun _ => 1 }

/-- A stream of draws that are all `0`, with which the click handler picks the first
shape function. -/
def zeroDraws : ℕ → ℚ := fun _ => 0

/-- A page, for evaluation: a settled Vesica Piscis instance and a settled Egg of Life
instance, each with its two remaining timers pending. -/
def demoState : State ℚ :=
  { now := 100
    elements :=
      [{ svg := createVesicaPiscisSVG 100 "hsl(180, 85%, 75%)"
         classList := ["art-element"]
         style :=
           { left := "100px"
             top := "50px"
             filter := "none"
             opacity := 13 / 20
             transform := "translate(-50%, -50%) scale(3/4) rotate(0deg)"
             transitionDelay := "1/4s" }
         lifecycle := [LifecycleState.Spawned, LifecycleState.Settling] },
       { svg := createEggOfLifeSVG 120 "hsl(90, 70%, 60%)"
         classList := ["art-element"]
         style :=
           { left := "240px"
             top := "130px"
             filter := "none"
             opacity := 2 / 5
             transform := "translate(-50%, -50%) scale(1/2) rotate(-180deg)"
             transitionDelay := "0s" }
         lifecycle := [LifecycleState.Spawned, LifecycleState.Settling] }]
    children := [0, 1]
    timers :=
      [{ fire := 10000, callback := Callback.fadeOut 0 },
        { fire := 12000, callback := Callback.remove 0 },
        { fire := 8000, callback := Callback.fadeOut 1 },
        { fire := 10000, callback := Callback.remove 1 }] }

end Page

end EphemeralCanvas

namespace EphemeralCanvas

section BuilderLemmas

variable {α : Type} [LinearOrderedField α]

theorem mul_unit_bounds {r c : α} (hr : 0 ≤ r) (hc : -1 ≤ c ∧ c ≤ 1) :
    -r ≤ r * c ∧ r * c ≤ r := by
  constructor <;> nlinarith [hc.1, hc.2]

/-- A figure inside a square has both extents at most the side of the square. -/
theorem Svg.extent_of_figureIn {s : Svg α} {lo hi : α} (h : s.FigureIn lo hi) :
    s.ExtentAtMost (hi - lo) := by
  intro p hp q hq p2 hp2 q2 hq2
  have h1 := h p hp q hq
  have h2 := h p2 hp2 q2 hq2
  simp only [Point.InBox] at h1 h2
  constructor <;> linarith

theorem Svg.figureIn_mono {s : Svg α} {lo hi lo2 hi2 : α} (h : s.FigureIn lo hi)
    (hlo : lo2 ≤ lo) (hhi : hi ≤ hi2) : s.FigureIn lo2 hi2 := by
  intro p hp q hq
  have h1 := h p hp q hq
  simp only [Point.InBox] at h1 ⊢
  refine ⟨?_, ?_, ?_, ?_⟩ <;> linarith

/-- The centre of a disc lies wherever its bounding corners lie. -/
theorem Svg.coordsIn_of_figureIn {s : Svg α} {lo hi : α} (h : s.FigureIn lo hi) :
    s.CoordsIn lo hi := by
  intro p hp q hq
  cases p with
  | circle cx cy r f st sw =>
    simp only [Primitive.coords, List.mem_singleton] at hq
    subst hq
    have h1 := h _ hp { x := cx - r, y := cy - r } (by simp [Primitive.extremes])
    have h2 := h _ hp { x := cx + r, y := cy + r } (by simp [Primitive.extremes])
    simp only [Point.InBox] at h1 h2 ⊢
    refine ⟨?_, ?_, ?_, ?_⟩ <;> linarith
  | line x1 y1 x2 y2 st sw => exact h _ hp q (by simpa [Primitive.extremes] using hq)
  | path d f st sw => exact h _ hp q (by simpa [Primitive.extremes] using hq)

theorem vesica_figure (size : α) (hs : 0 < size) (col : String) :
    (createVesicaPiscisSVG size col).FigureIn
      (innerSize 0.18 size / 2 - 0.475 * innerSize 0.18 size)
      (innerSize 0.18 size / 2 + 0.475 * innerSize 0.18 size) := by
  intro p hp q hq
  simp only [createVesicaPiscisSVG, createSVGCircle, List.mem_cons, List.mem_singleton,
    List.not_mem_nil, or_false] at hp
  rcases hp with rfl | rfl <;>
  · simp only [Primitive.extremes, List.mem_cons, List.mem_singleton, List.not_mem_nil,
      or_false] at hq
    rcases hq with rfl | rfl <;>
    · simp only [Point.InBox, innerSize]
      refine ⟨?_, ?_, ?_, ?_⟩ <;> linarith

theorem egg_coords (size : α) (hs : 0 < size) (col : String) :
    (createEggOfLifeSVG size col).CoordsIn 0 (innerSize 0.15 size) := by
  intro p hp q hq
  simp only [createEggOfLifeSVG, createSVGCircle, List.mem_cons, List.mem_singleton,
    List.not_mem_nil, or_false] at hp
  rcases hp with rfl | rfl | rfl <;>
  · simp only [Primitive.coords, List.mem_singleton] at hq
    subst hq
    simp only [Point.InBox, innerSize]
    refine ⟨?_, ?_, ?_, ?_⟩ <;> linarith

theorem Point.inBox_mono {q : Point α} {lo hi lo2 hi2 : α} (h : q.InBox lo hi)
    (hlo : lo2 ≤ lo) (hhi : hi ≤ hi2) : q.InBox lo2 hi2 := by
  simp only [Point.InBox] at h ⊢
  refine ⟨?_, ?_, ?_, ?_⟩ <;> linarith

/-- A disc around a point of a square lies in the square widened by the radius. -/
theorem disc_of_point_box {x y ρ lo hi : α} (f st : String) (sw : α) (hρ : 0 ≤ ρ)
    (h : ({ x := x, y := y } : Point α).InBox lo hi) :
    ∀ q ∈ (Primitive.circle x y ρ f st sw).extremes, q.InBox (lo - ρ) (hi + ρ) := by
  intro q hq
  simp only [Primitive.extremes, List.mem_cons, List.mem_singleton, List.not_mem_nil,
    or_false] at hq
  simp only [Point.InBox] at h
  rcases hq with rfl | rfl <;>
  · simp only [Point.InBox]
    refine ⟨?_, ?_, ?_, ?_⟩ <;> linarith

theorem point_box {I k c s B : α} (hk : 0 ≤ k) (hc : -1 ≤ c ∧ c ≤ 1)
    (hs : -1 ≤ s ∧ s ≤ 1) (hB : k ≤ B) :
    ({ x := I / 2 + k * c, y := I / 2 + k * s } : Point α).InBox (I / 2 - B) (I / 2 + B) := by
  have h1 := mul_unit_bounds hk hc
  have h2 := mul_unit_bounds hk hs
  simp only [Point.InBox]
  refine ⟨?_, ?_, ?_, ?_⟩ <;> linarith

theorem disc_box {I k ρ c s B : α} (f st : String) (sw : α) (hk : 0 ≤ k) (hρ : 0 ≤ ρ)
    (hc : -1 ≤ c ∧ c ≤ 1) (hs : -1 ≤ s ∧ s ≤ 1) (hB : k + ρ ≤ B) :
    ∀ q ∈ (Primitive.circle (I / 2 + k * c) (I / 2 + k * s) ρ f st sw).extremes,
      q.InBox (I / 2 - B) (I / 2 + B) := by
  have h1 := mul_unit_bounds hk hc
  have h2 := mul_unit_bounds hk hs
  intro q hq
  simp only [Primitive.extremes, List.mem_cons, List.mem_singleton, List.not_mem_nil,
    or_false] at hq
  rcases hq with rfl | rfl <;>
  · simp only [Point.InBox]
    refine ⟨?_, ?_, ?_, ?_⟩ <;> linarith

theorem disc_box_centre {I ρ B : α} (f st : String) (sw : α) (hρ : 0 ≤ ρ) (hB : ρ ≤ B) :
    ∀ q ∈ (Primitive.circle (I / 2) (I / 2) ρ f st sw).extremes,
      q.InBox (I / 2 - B) (I / 2 + B) := by
  intro q hq
  simp only [Primitive.extremes, List.mem_cons, List.mem_singleton, List.not_mem_nil,
    or_false] at hq
  rcases hq with rfl | rfl <;>
  · simp only [Point.InBox]
    refine ⟨?_, ?_, ?_, ?_⟩ <;> linarith

theorem flower_figure (Math : MathEnv α) (hM : Math.Bounded) (size : α) (hs : 0 < size)
    (col : String) :
    (createFlowerOfLifeSVG Math size col).FigureIn
      (innerSize 0.1 size / 2 - 0.475 * innerSize 0.1 size)
      (innerSize 0.1 size / 2 + 0.475 * innerSize 0.1 size) := by
  have hI : (0 : α) ≤ innerSize 0.1 size := by
    simp only [innerSize]; linarith
  have hr : (0 : α) ≤ innerSize 0.1 size * 0.95 / 12 := by
    apply div_nonneg <;> nlinarith
  have hr2 : (0 : α) ≤ 2 * (innerSize 0.1 size * 0.95 / 12) := by linarith
  have hr3 : (0 : α) ≤ 3 * (innerSize 0.1 size * 0.95 / 12) := by linarith
  have b0 : innerSize 0.1 size * 0.95 / 12 ≤ 0.475 * innerSize 0.1 size := by linarith
  have b1 : innerSize 0.1 size * 0.95 / 12 + innerSize 0.1 size * 0.95 / 12 ≤
      0.475 * innerSize 0.1 size := by linarith
  have b2 : 2 * (innerSize 0.1 size * 0.95 / 12) + innerSize 0.1 size * 0.95 / 12 ≤
      0.475 * innerSize 0.1 size := by linarith
  have b3 : 3 * (innerSize 0.1 size * 0.95 / 12) + innerSize 0.1 size * 0.95 / 12 ≤
      0.475 * innerSize 0.1 size := by linarith
  intro p hp
  simp only [createFlowerOfLifeSVG, createSVGCircle, List.mem_append, List.mem_singleton,
    List.mem_map, List.mem_range] at hp
  rcases hp with ((rfl | ⟨i, -, rfl⟩) | ⟨i, -, rfl⟩) | ⟨i, -, rfl⟩
  · exact disc_box_centre _ _ _ hr b0
  · exact disc_box _ _ _ hr hr (hM.1 _) (hM.2.1 _) b1
  · exact disc_box _ _ _ hr2 hr (hM.1 _) (hM.2.1 _) b2
  · exact disc_box _ _ _ hr3 hr (hM.1 _) (hM.2.1 _) b3

theorem seed_figure (Math : MathEnv α) (hM : Math.Bounded) (size : α) (hs : 0 < size)
    (col : String) :
    (createSeedOfLifeSVG Math size col).FigureIn
      (innerSize 0.15 size / 2 - 0.475 * innerSize 0.15 size)
      (innerSize 0.15 size / 2 + 0.475 * innerSize 0.15 size) := by
  have hI : (0 : α) ≤ innerSize 0.15 size := by
    simp only [innerSize]; linarith
  have hr : (0 : α) ≤ innerSize 0.15 size / 6 := by linarith
  have b0 : innerSize 0.15 size / 6 ≤ 0.475 * innerSize 0.15 size := by linarith
  have b1 : innerSize 0.15 size / 6 + innerSize 0.15 size / 6 ≤
      0.475 * innerSize 0.15 size := by linarith
  intro p hp
  simp only [createSeedOfLifeSVG, createSVGCircle, List.mem_append, List.mem_singleton,
    List.mem_map, List.mem_range] at hp
  rcases hp with rfl | ⟨i, -, rfl⟩
  · exact disc_box_centre _ _ _ hr b0
  · exact disc_box _ _ _ hr hr (hM.1 _) (hM.2.1 _) b1

theorem metatronPoints_length (Math : MathEnv α) (size : α) :
    (metatronPoints Math size).length = 13 := by
  simp only [metatronPoints, List.length_append, List.length_map, List.length_range,
    List.length_singleton]

theorem metatronPoints_box (Math : MathEnv α) (hM : Math.Bounded) (size : α) (hs : 0 < size) :
    ∀ pt ∈ metatronPoints Math size,
      pt.InBox (innerSize 0.25 size / 2 - 0.45 * innerSize 0.25 size)
        (innerSize 0.25 size / 2 + 0.45 * innerSize 0.25 size) := by
  have hI : (0 : α) ≤ innerSize 0.25 size := by
    simp only [innerSize]; linarith
  have hd : (0 : α) ≤ innerSize 0.25 size * 0.9 / 4 := by
    apply div_nonneg <;> nlinarith
  have hd2 : (0 : α) ≤ innerSize 0.25 size * 0.9 / 4 * 2 := by linarith
  have b1 : innerSize 0.25 size * 0.9 / 4 ≤ 0.45 * innerSize 0.25 size := by linarith
  have b2 : innerSize 0.25 size * 0.9 / 4 * 2 ≤ 0.45 * innerSize 0.25 size := by linarith
  intro pt hpt
  simp only [metatronPoints, List.mem_append, List.mem_singleton, List.mem_map,
    List.mem_range] at hpt
  rcases hpt with (rfl | ⟨i, -, rfl⟩) | ⟨i, -, rfl⟩
  · simp only [Point.InBox]
    have hI2 : size - 2 * (size * 0.25) = innerSize 0.25 size := rfl
    rw [hI2]
    refine ⟨?_, ?_, ?_, ?_⟩ <;> linarith
  · exact point_box hd (hM.1 _) (hM.2.1 _) b1
  · exact point_box hd2 (hM.1 _) (hM.2.1 _) b2

theorem pointAt_mem {points : List (Point α)} {i : ℕ} (h : i < points.length) :
    pointAt points i ∈ points := by
  unfold pointAt
  rw [List.getD_eq_getElem _ _ h]
  exact List.getElem_mem h

theorem metatron_figure (Math : MathEnv α) (hM : Math.Bounded) (size : α) (hs : 0 < size)
    (col : String) :
    (createMetatronsCubeSVG Math size col).FigureIn
      (innerSize 0.25 size / 2 - 0.475 * innerSize 0.25 size)
      (innerSize 0.25 size / 2 + 0.475 * innerSize 0.25 size) := by
  have hbox := metatronPoints_box Math hM size hs
  have hI : (0 : α) ≤ innerSize 0.25 size := by
    simp only [innerSize]; linarith
  have hI2 : size - 2 * (size * 0.25) = innerSize 0.25 size := rfl
  have hρ : (0 : α) ≤ innerSize 0.25 size / 100 * 1.5 := by linarith
  have e1 : innerSize 0.25 size / 2 - 0.475 * innerSize 0.25 size ≤
      innerSize 0.25 size / 2 - 0.45 * innerSize 0.25 size -
        innerSize 0.25 size / 100 * 1.5 := by linarith
  have e2 : innerSize 0.25 size / 2 + 0.45 * innerSize 0.25 size +
      innerSize 0.25 size / 100 * 1.5 ≤
        innerSize 0.25 size / 2 + 0.475 * innerSize 0.25 size := by linarith
  have e3 : innerSize 0.25 size / 2 - 0.475 * innerSize 0.25 size ≤
      innerSize 0.25 size / 2 - 0.45 * innerSize 0.25 size := by linarith
  have e4 : innerSize 0.25 size / 2 + 0.45 * innerSize 0.25 size ≤
        innerSize 0.25 size / 2 + 0.475 * innerSize 0.25 size := by linarith
  intro p hp q hq
  simp only [createMetatronsCubeSVG, createSVGLine, createSVGCircle, List.mem_append,
    List.mem_flatMap, List.mem_map, List.mem_range, List.mem_range'_1, hI2] at hp
  rcases hp with ⟨i, hi, j, hj, rfl⟩ | ⟨pt, hpt, rfl⟩
  · have hi2 : i < (metatronPoints Math size).length := hi
    have hj2 : j < (metatronPoints Math size).length := by omega
    have b1 := hbox _ (pointAt_mem hi2)
    have b2 := hbox _ (pointAt_mem hj2)
    simp only [Primitive.extremes, Primitive.coords, List.mem_cons, List.mem_singleton,
      List.not_mem_nil, or_false] at hq
    rcases hq with rfl | rfl
    · exact Point.inBox_mono b1 e3 e4
    · exact Point.inBox_mono b2 e3 e4
  · have b1 := hbox _ hpt
    exact Point.inBox_mono (disc_of_point_box _ _ _ hρ b1 q hq) e1 e2

theorem merkaba_figure (Math : MathEnv α) (hM : Math.Bounded) (size : α) (hs : 0 < size)
    (col : String) :
    (createMerkabaSVG Math size col).FigureIn
      (innerSize 0.15 size / 2 - 0.475 * innerSize 0.15 size)
      (innerSize 0.15 size / 2 + 0.475 * innerSize 0.15 size) := by
  have hI : (0 : α) ≤ innerSize 0.15 size := by
    simp only [innerSize]; linarith
  have hI2 : size - 2 * (size * 0.15) = innerSize 0.15 size := rfl
  have hh : (0 : α) ≤ innerSize 0.15 size * 0.7 := by nlinarith
  have hpos : (0 : α) < Math.sqrt 3 := lt_of_lt_of_le one_pos hM.2.2
  have hs1 : (0 : α) ≤ innerSize 0.15 size * 0.7 / Math.sqrt 3 :=
    div_nonneg hh hpos.le
  have hs2 : innerSize 0.15 size * 0.7 / Math.sqrt 3 ≤
      innerSize 0.15 size * 0.7 := div_le_self hh hM.2.2
  intro p hp q hq
  simp only [createMerkabaSVG, createSVGLine, List.mem_cons, List.mem_singleton,
    List.not_mem_nil, or_false, hI2] at hp
  generalize innerSize 0.15 size * 0.7 / Math.sqrt 3 = sd at *
  generalize innerSize 0.15 size = I at *
  clear hM hpos hI2 hs
  have u1 : ({ x := I / 2, y := I / 2 - I * 0.7 / 2 } : Point α).InBox
      (I / 2 - 0.475 * I) (I / 2 + 0.475 * I) := by
    simp only [Point.InBox]
    refine ⟨?_, ?_, ?_, ?_⟩ <;> linarith
  have u2 : ({ x := I / 2 - sd / 2, y := I / 2 + I * 0.7 / 2 - I * 0.7 * 1 / 3 } :
      Point α).InBox (I / 2 - 0.475 * I) (I / 2 + 0.475 * I) := by
    simp only [Point.InBox]
    refine ⟨?_, ?_, ?_, ?_⟩ <;> linarith
  have u3 : ({ x := I / 2 + sd / 2, y := I / 2 + I * 0.7 / 2 - I * 0.7 * 1 / 3 } :
      Point α).InBox (I / 2 - 0.475 * I) (I / 2 + 0.475 * I) := by
    simp only [Point.InBox]
    refine ⟨?_, ?_, ?_, ?_⟩ <;> linarith
  have d1 : ({ x := I / 2, y := I / 2 + I * 0.7 / 2 } : Point α).InBox
      (I / 2 - 0.475 * I) (I / 2 + 0.475 * I) := by
    simp only [Point.InBox]
    refine ⟨?_, ?_, ?_, ?_⟩ <;> linarith
  have d2 : ({ x := I / 2 - sd / 2, y := I / 2 - I * 0.7 / 2 + I * 0.7 * 1 / 3 } :
      Point α).InBox (I / 2 - 0.475 * I) (I / 2 + 0.475 * I) := by
    simp only [Point.InBox]
    refine ⟨?_, ?_, ?_, ?_⟩ <;> linarith
  have d3 : ({ x := I / 2 + sd / 2, y := I / 2 - I * 0.7 / 2 + I * 0.7 * 1 / 3 } :
      Point α).InBox (I / 2 - 0.475 * I) (I / 2 + 0.475 * I) := by
    simp only [Point.InBox]
    refine ⟨?_, ?_, ?_, ?_⟩ <;> linarith
  rcases hp with rfl | rfl | rfl | rfl | rfl | rfl | rfl | rfl | rfl <;>
  · simp only [Primitive.extremes, Primitive.coords, List.filterMap_cons,
      List.filterMap_nil, List.mem_cons, List.mem_singleton, List.not_mem_nil,
      or_false] at hq
    rcases hq with rfl | rfl | rfl <;>
      first | exact u1 | exact u2 | exact u3 | exact d1 | exact d2 | exact d3

end BuilderLemmas

end EphemeralCanvas

namespace EphemeralCanvas

section BuilderClaims

theorem real_bounded : (⟨Real.pi, Real.cos, Real.sin, Real.sqrt⟩ : MathEnv ℝ).Bounded := by
  refine ⟨fun a => ⟨Real.neg_one_le_cos a, Real.cos_le_one a⟩,
    fun a => ⟨Real.neg_one_le_sin a, Real.sin_le_one a⟩, ?_⟩
  show (1 : ℝ) ≤ Real.sqrt 3
  rw [Real.one_le_sqrt]
  norm_num

/-- A figure that lies in the centred square of side `0.95 * I` has coordinates in
`[0, I]`, lies in the view box and has both extents at most `0.95 * I`. -/
theorem fits_of_centred {α : Type} [LinearOrderedField α] {s : Svg α} {I : α} (hI : 0 ≤ I)
    (h : s.FigureIn (I / 2 - 0.475 * I) (I / 2 + 0.475 * I)) :
    s.CoordsIn 0 I ∧ s.FigureIn 0 I ∧ s.ExtentAtMost (0.95 * I) := by
  have h0 : s.FigureIn 0 I := Svg.figureIn_mono h (by linarith) (by linarith)
  refine ⟨Svg.coordsIn_of_figureIn h0, h0, ?_⟩
  have e := Svg.extent_of_figureIn h
  have : I / 2 + 0.475 * I - (I / 2 - 0.475 * I) = 0.95 * I := by ring
  rwa [this] at e

theorem innerSize_nonneg {α : Type} [LinearOrderedField α] {f size : α} (hs : 0 < size)
    (hf : 2 * f ≤ 1) : 0 ≤ innerSize f size := by
  simp only [innerSize]
  nlinarith

theorem innerSize_eq {α : Type} [LinearOrderedField α] (f size : α) :
    size - 2 * (f * size) = innerSize f size := by
  simp only [innerSize]
  ring

/-- C1.  For each of the six builders and every `size > 0`, with the real cosine, sine
and square root, the list of primitives is not empty and every coordinate of every
primitive (circle centres, line endpoints, path vertices) has `x` and `y` in the closed
interval from `0` to `size - 2 * padding`, the padding being `0.18`, `0.15`, `0.15`,
`0.10`, `0.25` and `0.15` times `size`. -/
theorem builders_coords_in_inner_square (size : ℝ) (hs : 0 < size) (col : String) :
    ((createVesicaPiscisSVG size col).children ≠ [] ∧
      (createVesicaPiscisSVG size col).CoordsIn 0 (size - 2 * (0.18 * size))) ∧
    ((createEggOfLifeSVG size col).children ≠ [] ∧
      (createEggOfLifeSVG size col).CoordsIn 0 (size - 2 * (0.15 * size))) ∧
    ((createSeedOfLifeSVG ⟨Real.pi, Real.cos, Real.sin, Real.sqrt⟩ size col).children ≠ [] ∧
      (createSeedOfLifeSVG ⟨Real.pi, Real.cos, Real.sin, Real.sqrt⟩ size col).CoordsIn 0
        (size - 2 * (0.15 * size))) ∧
    ((createFlowerOfLifeSVG ⟨Real.pi, Real.cos, Real.sin, Real.sqrt⟩ size col).children ≠ [] ∧
      (createFlowerOfLifeSVG ⟨Real.pi, Real.cos, Real.sin, Real.sqrt⟩ size col).CoordsIn 0
        (size - 2 * (0.10 * size))) ∧
    ((createMetatronsCubeSVG ⟨Real.pi, Real.cos, Real.sin, Real.sqrt⟩ size col).children ≠ [] ∧
      (createMetatronsCubeSVG ⟨Real.pi, Real.cos, Real.sin, Real.sqrt⟩ size col).CoordsIn 0
        (size - 2 * (0.25 * size))) ∧
    ((createMerkabaSVG ⟨Real.pi, Real.cos, Real.sin, Real.sqrt⟩ size col).children ≠ [] ∧
      (createMerkabaSVG ⟨Real.pi, Real.cos, Real.sin, Real.sqrt⟩ size col).CoordsIn 0
        (size - 2 * (0.15 * size))) := by
  have e10 : (0.10 : ℝ) = 0.1 := by norm_num
  rw [innerSize_eq, innerSize_eq, innerSize_eq, e10, innerSize_eq]
  refine ⟨⟨?_, ?_⟩, ⟨?_, ?_⟩, ⟨?_, ?_⟩, ⟨?_, ?_⟩, ⟨?_, ?_⟩, ⟨?_, ?_⟩⟩
  · simp [createVesicaPiscisSVG]
  · exact (fits_of_centred (innerSize_nonneg hs (by norm_num))
      (vesica_figure size hs col)).1
  · simp [createEggOfLifeSVG]
  · exact egg_coords size hs col
  · simp [createSeedOfLifeSVG]
  · exact (fits_of_centred (innerSize_nonneg hs (by norm_num))
      (seed_figure _ real_bounded size hs col)).1
  · simp [createFlowerOfLifeSVG]
  · exact (fits_of_centred (innerSize_nonneg hs (by norm_num))
      (flower_figure _ real_bounded size hs col)).1
  · simp [createMetatronsCubeSVG, metatronPoints]
  · exact (fits_of_centred (innerSize_nonneg hs (by norm_num))
      (metatron_figure _ real_bounded size hs col)).1
  · simp [createMerkabaSVG]
  · exact (fits_of_centred (innerSize_nonneg hs (by norm_num))
      (merkaba_figure _ real_bounded size hs col)).1

/-- Witness of C1 at `size = 100`. -/
theorem builders_coords_in_inner_square_witness :
    (0 : ℝ) < 100 ∧
    ((createVesicaPiscisSVG (100 : ℝ) "white").children ≠ [] ∧
      (createVesicaPiscisSVG (100 : ℝ) "white").CoordsIn 0 (100 - 2 * (0.18 * 100))) :=
  ⟨by norm_num, (builders_coords_in_inner_square 100 (by norm_num) "white").1⟩

/-- The five builders other than the Egg of Life do fit: for every `size > 0` the figure,
circles taken as discs, lies in the view box and both its extents are at most
`0.95 * (size - 2 * padding)`. -/
theorem five_builders_fit (size : ℝ) (hs : 0 < size) (col : String) :
    ((createVesicaPiscisSVG size col).FigureIn 0 (size - 2 * (0.18 * size)) ∧
      (createVesicaPiscisSVG size col).ExtentAtMost (0.95 * (size - 2 * (0.18 * size)))) ∧
    ((createSeedOfLifeSVG ⟨Real.pi, Real.cos, Real.sin, Real.sqrt⟩ size col).FigureIn 0
        (size - 2 * (0.15 * size)) ∧
      (createSeedOfLifeSVG ⟨Real.pi, Real.cos, Real.sin, Real.sqrt⟩ size col).ExtentAtMost
        (0.95 * (size - 2 * (0.15 * size)))) ∧
    ((createFlowerOfLifeSVG ⟨Real.pi, Real.cos, Real.sin, Real.sqrt⟩ size col).FigureIn 0
        (size - 2 * (0.10 * size)) ∧
      (createFlowerOfLifeSVG ⟨Real.pi, Real.cos, Real.sin, Real.sqrt⟩ size col).ExtentAtMost
        (0.95 * (size - 2 * (0.10 * size)))) ∧
    ((createMetatronsCubeSVG ⟨Real.pi, Real.cos, Real.sin, Real.sqrt⟩ size col).FigureIn 0
        (size - 2 * (0.25 * size)) ∧
      (createMetatronsCubeSVG ⟨Real.pi, Real.cos, Real.sin, Real.sqrt⟩ size col).ExtentAtMost
        (0.95 * (size - 2 * (0.25 * size)))) ∧
    ((createMerkabaSVG ⟨Real.pi, Real.cos, Real.sin, Real.sqrt⟩ size col).FigureIn 0
        (size - 2 * (0.15 * size)) ∧
      (createMerkabaSVG ⟨Real.pi, Real.cos, Real.sin, Real.sqrt⟩ size col).ExtentAtMost
        (0.95 * (size - 2 * (0.15 * size)))) := by
  have e10 : (0.10 : ℝ) = 0.1 := by norm_num
  rw [innerSize_eq, innerSize_eq, e10, innerSize_eq, innerSize_eq]
  exact ⟨(fits_of_centred (innerSize_nonneg hs (by norm_num)) (vesica_figure size hs col)).2,
    (fits_of_centred (innerSize_nonneg hs (by norm_num))
      (seed_figure _ real_bounded size hs col)).2,
    (fits_of_centred (innerSize_nonneg hs (by norm_num))
      (flower_figure _ real_bounded size hs col)).2,
    (fits_of_centred (innerSize_nonneg hs (by norm_num))
      (metatron_figure _ real_bounded size hs col)).2,
    (fits_of_centred (innerSize_nonneg hs (by norm_num))
      (merkaba_figure _ real_bounded size hs col)).2⟩

/-- C2 at the failing input.  `createEggOfLifeSVG(100, "white")` has inner size `70` and
three circles of radius `70 / 3` centred at `y = 35 - 70 / 3`, `35` and `35 + 70 / 3`:
the top circle reaches `y = -35 / 3 < 0` and the bottom one `y = 245 / 3 > 70`, so the
figure leaves the view box, and its vertical extent `280 / 3` exceeds both the inner size
`70` and `0.95 * 70`. -/
theorem egg_of_life_overflows :
    (createEggOfLifeSVG (100 : ℚ) "white").children =
      [Primitive.circle 35 (35 - 70 / 3) (70 / 3) "none" "white" (7 / 5),
        Primitive.circle 35 35 (70 / 3) "none" "white" (7 / 5),
        Primitive.circle 35 (35 + 70 / 3) (70 / 3) "none" "white" (7 / 5)] ∧
    ¬ (createEggOfLifeSVG (100 : ℚ) "white").FigureIn 0 (100 - 2 * (0.15 * 100)) ∧
    ¬ (createEggOfLifeSVG (100 : ℚ) "white").ExtentAtMost (100 - 2 * (0.15 * 100)) ∧
    ¬ (createEggOfLifeSVG (100 : ℚ) "white").ExtentAtMost
      (0.95 * (100 - 2 * (0.15 * 100))) := by
  have hc : (createEggOfLifeSVG (100 : ℚ) "white").children =
      [Primitive.circle 35 (35 - 70 / 3) (70 / 3) "none" "white" (7 / 5),
        Primitive.circle 35 35 (70 / 3) "none" "white" (7 / 5),
        Primitive.circle 35 (35 + 70 / 3) (70 / 3) "none" "white" (7 / 5)] := by
    simp only [createEggOfLifeSVG, createSVGCircle]
    norm_num
  refine ⟨hc, ?_, ?_, ?_⟩
  · intro h
    have := h _ (by rw [hc]; exact List.mem_cons_self _ _)
      { x := 35 - 70 / 3, y := 35 - 70 / 3 - 70 / 3 } (by simp [Primitive.extremes])
    simp only [Point.InBox] at this
    norm_num at this
  · intro h
    have := h (Primitive.circle 35 (35 + 70 / 3) (70 / 3) "none" "white" (7 / 5))
      (by rw [hc]; simp)
      { x := 35 + 70 / 3, y := 35 + 70 / 3 + 70 / 3 } (by simp [Primitive.extremes])
      (Primitive.circle 35 (35 - 70 / 3) (70 / 3) "none" "white" (7 / 5))
      (by rw [hc]; simp)
      { x := 35 - 70 / 3, y := 35 - 70 / 3 - 70 / 3 } (by simp [Primitive.extremes])
    norm_num at this
  · intro h
    have := h (Primitive.circle 35 (35 + 70 / 3) (70 / 3) "none" "white" (7 / 5))
      (by rw [hc]; simp)
      { x := 35 + 70 / 3, y := 35 + 70 / 3 + 70 / 3 } (by simp [Primitive.extremes])
      (Primitive.circle 35 (35 - 70 / 3) (70 / 3) "none" "white" (7 / 5))
      (by rw [hc]; simp)
      { x := 35 - 70 / 3, y := 35 - 70 / 3 - 70 / 3 } (by simp [Primitive.extremes])
    norm_num at this

/-- C3.  For every size, `createMetatronsCubeSVG` builds exactly 13 points and appends
exactly 78 lines followed by exactly 13 circles.  The lines are the images, in order, of
a duplicate-free list of index pairs that contains `(i, j)` exactly when `i < j < 13`, so
every unordered pair of points gets one line and none gets two; the circles are centred
on the points, in order, with radius `1.5 * (innerSize / 100)`, filled with the stroke
colour. -/
theorem metatron_complete_graph {α : Type} [LinearOrderedField α] (Math : MathEnv α)
    (size : α) (col : String) :
    (metatronPoints Math size).length = 13 ∧
    ∃ (pairs : List (ℕ × ℕ)) (lines circles : List (Primitive α)),
      (createMetatronsCubeSVG Math size col).children = lines ++ circles ∧
      lines.length = 78 ∧ circles.length = 13 ∧
      pairs.Nodup ∧ (∀ i j, (i, j) ∈ pairs ↔ i < j ∧ j < 13) ∧
      lines = pairs.map (fun ij =>
        Primitive.line (pointAt (metatronPoints Math size) ij.1).x
          (pointAt (metatronPoints Math size) ij.1).y
          (pointAt (metatronPoints Math size) ij.2).x
          (pointAt (metatronPoints Math size) ij.2).y col
          ((size - 2 * (0.25 * size)) / 100)) ∧
      circles = (metatronPoints Math size).map (fun p =>
        Primitive.circle p.x p.y (1.5 * ((size - 2 * (0.25 * size)) / 100)) col col 0) := by
  have hlen := metatronPoints_length Math size
  refine ⟨hlen, (List.range 13).flatMap (fun i =>
      (List.range' (i + 1) (13 - (i + 1))).map (fun j => (i, j))), _, _, ?_, ?_, ?_, ?_, ?_,
      rfl, rfl⟩
  · simp only [createMetatronsCubeSVG, createSVGLine, createSVGCircle, hlen,
      List.map_flatMap, List.map_map]
    congr 1
    · have e : size - 2 * (size * 0.25) = size - 2 * (0.25 * size) := by ring
      rw [e]
      rfl
    · have e : (size - 2 * (size * 0.25)) / 100 * 1.5 =
          1.5 * ((size - 2 * (0.25 * size)) / 100) := by ring
      rw [e]
  · rw [List.length_map]
    decide
  · rw [List.length_map, hlen]
  · decide
  · intro i j
    simp only [List.mem_flatMap, List.mem_range, List.mem_map, List.mem_range'_1,
      Prod.mk.injEq]
    constructor
    · rintro ⟨a, ha, b, hb, rfl, rfl⟩
      omega
    · rintro ⟨h1, h2⟩
      exact ⟨i, by omega, j, by omega, rfl, rfl⟩

theorem ring_distSq (c k a : ℝ) :
    distSq { x := c + k * Real.cos a, y := c + k * Real.sin a } { x := c, y := c } =
      k ^ 2 := by
  simp only [distSq]
  have h := Real.cos_sq_add_sin_sq a
  linear_combination k ^ 2 * h

/-- C4.  For every size, `createFlowerOfLifeSVG` appends exactly 19 circles and nothing
else: the centre circle, then three rings of six circles whose centres are at distance
`r`, `2 r` and `3 r` from the centre of the view box, all with the same radius
`r = 0.95 * innerSize / 12`, where `innerSize = size - 2 * 0.1 * size`.  The distances are
stated by their squares and as Euclidean distances `|r|`, `2 |r|`, `3 |r|` (which are
`r`, `2 r`, `3 r` as soon as `size ≥ 0`). -/
theorem flower_nineteen_circles (size : ℝ) (col : String) :
    ∃ (I r : ℝ) (C : Point ℝ) (ring1 ring2 ring3 : List (Point ℝ)),
      I = size - 2 * 0.1 * size ∧ r = 0.95 * I / 12 ∧ C = { x := I / 2, y := I / 2 } ∧
      (createFlowerOfLifeSVG ⟨Real.pi, Real.cos, Real.sin, Real.sqrt⟩ size col).children =
        ([C] ++ ring1 ++ ring2 ++ ring3).map
          (fun p => Primitive.circle p.x p.y r "none" col (I / 60)) ∧
      (createFlowerOfLifeSVG ⟨Real.pi, Real.cos, Real.sin, Real.sqrt⟩ size col).children.length
        = 19 ∧
      ring1.length = 6 ∧ ring2.length = 6 ∧ ring3.length = 6 ∧
      (∀ p ∈ ring1, distSq p C = r ^ 2 ∧ Real.sqrt (distSq p C) = |r|) ∧
      (∀ p ∈ ring2, distSq p C = (2 * r) ^ 2 ∧ Real.sqrt (distSq p C) = 2 * |r|) ∧
      (∀ p ∈ ring3, distSq p C = (3 * r) ^ 2 ∧ Real.sqrt (distSq p C) = 3 * |r|) := by
  have hI : size - 2 * (size * 0.1) = size - 2 * 0.1 * size := by ring
  have hr : (size - 2 * 0.1 * size) * 0.95 / 12 = 0.95 * (size - 2 * 0.1 * size) / 12 := by
    ring
  refine ⟨size - 2 * 0.1 * size, 0.95 * (size - 2 * 0.1 * size) / 12, _,
    (List.range 6).map (fun (i : ℕ) =>
      { x := (size - 2 * 0.1 * size) / 2 + 0.95 * (size - 2 * 0.1 * size) / 12 *
          Real.cos ((i : ℝ) / 6 * Real.pi * 2)
        y := (size - 2 * 0.1 * size) / 2 + 0.95 * (size - 2 * 0.1 * size) / 12 *
          Real.sin ((i : ℝ) / 6 * Real.pi * 2) }),
    (List.range 6).map (fun (i : ℕ) =>
      { x := (size - 2 * 0.1 * size) / 2 + 2 * (0.95 * (size - 2 * 0.1 * size) / 12) *
          Real.cos ((i : ℝ) / 6 * Real.pi * 2 + Real.pi / 6)
        y := (size - 2 * 0.1 * size) / 2 + 2 * (0.95 * (size - 2 * 0.1 * size) / 12) *
          Real.sin ((i : ℝ) / 6 * Real.pi * 2 + Real.pi / 6) }),
    (List.range 6).map (fun (i : ℕ) =>
      { x := (size - 2 * 0.1 * size) / 2 + 3 * (0.95 * (size - 2 * 0.1 * size) / 12) *
          Real.cos ((i : ℝ) / 6 * Real.pi * 2)
        y := (size - 2 * 0.1 * size) / 2 + 3 * (0.95 * (size - 2 * 0.1 * size) / 12) *
          Real.sin ((i : ℝ) / 6 * Real.pi * 2) }),
    rfl, rfl, rfl, ?_, ?_, ?_, ?_, ?_, ?_, ?_, ?_⟩
  · simp only [createFlowerOfLifeSVG, createSVGCircle, hI, hr, List.map_append,
      List.map_map, List.map_cons, List.map_nil]
    rfl
  · simp [createFlowerOfLifeSVG]
  · simp
  · simp
  · simp
  · intro p hp
    simp only [List.mem_map, List.mem_range] at hp
    obtain ⟨i, -, rfl⟩ := hp
    rw [ring_distSq]
    exact ⟨rfl, Real.sqrt_sq_eq_abs _⟩
  · intro p hp
    simp only [List.mem_map, List.mem_range] at hp
    obtain ⟨i, -, rfl⟩ := hp
    rw [ring_distSq]
    refine ⟨rfl, ?_⟩
    rw [Real.sqrt_sq_eq_abs, abs_mul, abs_two]
  · intro p hp
    simp only [List.mem_map, List.mem_range] at hp
    obtain ⟨i, -, rfl⟩ := hp
    rw [ring_distSq]
    refine ⟨rfl, ?_⟩
    rw [Real.sqrt_sq_eq_abs, abs_mul]
    norm_num

/-- C10.  For every size, `createMerkabaSVG` appends exactly two closed three-vertex
paths followed by exactly seven lines, with `height = 0.7 * innerSize` and
`side = height / sqrt 3`; each vertex of the down triangle has the `x` of the
corresponding vertex of the up triangle and `y_down = innerSize - y_up`, the mirror
image in the horizontal line `y = innerSize / 2`. -/
theorem merkaba_two_triangles_seven_lines (size : ℝ) (col : String) :
    ∃ (I h s : ℝ) (u1 u2 u3 d1 d2 d3 : Point ℝ),
      I = size - 2 * (0.15 * size) ∧ h = 0.7 * I ∧ s = h / Real.sqrt 3 ∧
      u1 = { x := I / 2, y := I / 2 - h / 2 } ∧
      u2 = { x := I / 2 - s / 2, y := I / 2 + h / 2 - h / 3 } ∧
      u3 = { x := I / 2 + s / 2, y := I / 2 + h / 2 - h / 3 } ∧
      (createMerkabaSVG ⟨Real.pi, Real.cos, Real.sin, Real.sqrt⟩ size col).children =
        [Primitive.path [PathCmd.M u1.x u1.y, PathCmd.L u2.x u2.y, PathCmd.L u3.x u3.y,
            PathCmd.Z] "none" col (I / 60),
          Primitive.path [PathCmd.M d1.x d1.y, PathCmd.L d2.x d2.y, PathCmd.L d3.x d3.y,
            PathCmd.Z] "none" col (I / 60),
          Primitive.line u1.x u1.y d2.x d2.y col (I / 60),
          Primitive.line u1.x u1.y d3.x d3.y col (I / 60),
          Primitive.line u2.x u2.y d1.x d1.y col (I / 60),
          Primitive.line u3.x u3.y d1.x d1.y col (I / 60),
          Primitive.line u2.x u2.y d2.x d2.y col (I / 60),
          Primitive.line u3.x u3.y d3.x d3.y col (I / 60),
          Primitive.line d2.x d2.y d3.x d3.y col (I / 60)] ∧
      (d1.x = u1.x ∧ d1.y = I - u1.y) ∧ (d2.x = u2.x ∧ d2.y = I - u2.y) ∧
      (d3.x = u3.x ∧ d3.y = I - u3.y) := by
  have hI : size - 2 * (size * 0.15) = size - 2 * (0.15 * size) := by ring
  refine ⟨size - 2 * (0.15 * size), 0.7 * (size - 2 * (0.15 * size)),
    0.7 * (size - 2 * (0.15 * size)) / Real.sqrt 3, _, _, _,
    { x := (size - 2 * (0.15 * size)) / 2,
      y := (size - 2 * (0.15 * size)) / 2 + 0.7 * (size - 2 * (0.15 * size)) / 2 },
    { x := (size - 2 * (0.15 * size)) / 2 -
        0.7 * (size - 2 * (0.15 * size)) / Real.sqrt 3 / 2,
      y := (size - 2 * (0.15 * size)) / 2 - 0.7 * (size - 2 * (0.15 * size)) / 2 +
        0.7 * (size - 2 * (0.15 * size)) / 3 },
    { x := (size - 2 * (0.15 * size)) / 2 +
        0.7 * (size - 2 * (0.15 * size)) / Real.sqrt 3 / 2,
      y := (size - 2 * (0.15 * size)) / 2 - 0.7 * (size - 2 * (0.15 * size)) / 2 +
        0.7 * (size - 2 * (0.15 * size)) / 3 },
    rfl, rfl, rfl, rfl, rfl, rfl, ?_, ?_, ?_, ?_⟩
  · simp only [createMerkabaSVG, createSVGLine, hI, mul_one,
      mul_comm (size - 2 * (0.15 * size)) (0.7 : ℝ)]
  · exact ⟨rfl, by ring⟩
  · exact ⟨rfl, by ring⟩
  · exact ⟨rfl, by ring⟩

end BuilderClaims

end EphemeralCanvas

namespace EphemeralCanvas

section RandomStyleClaims

variable {α : Type} [LinearOrderedField α] [FloorRing α]

theorem floor_scaled_range {u : α} (h0 : 0 ≤ u) (h1 : u < 1) {lo hi : ℤ} (h : lo ≤ hi) :
    lo ≤ Int.floor (u * ((hi : α) - (lo : α))) + lo ∧
      Int.floor (u * ((hi : α) - (lo : α))) + lo ≤ hi := by
  have hd : (0 : α) ≤ (hi : α) - (lo : α) := by
    have : (lo : α) ≤ (hi : α) := by exact_mod_cast h
    linarith
  have hnn : 0 ≤ Int.floor (u * ((hi : α) - (lo : α))) :=
    Int.floor_nonneg.mpr (mul_nonneg h0 hd)
  have hle : Int.floor (u * ((hi : α) - (lo : α))) ≤ hi - lo := by
    have h2 : u * ((hi : α) - (lo : α)) ≤ ((hi - lo : ℤ) : α) := by
      push_cast
      nlinarith
    have := Int.floor_mono h2
    rwa [Int.floor_intCast] at this
  constructor <;> omega

/-- C9.  For three random draws in `[0, 1)` and integer ranges `[sLo, sHi]`, `[lLo, lHi]`
with `sLo ≤ sHi` and `lLo ≤ lHi`, the numbers that `getRandomHSLColor` renders are an
integer hue with `0 ≤ hue < 360`, an integer saturation with `sLo ≤ saturation ≤ sHi`
and an integer lightness with `lLo ≤ lightness ≤ lHi`. -/
theorem getRandomHSLColor_in_ranges (str : α → String) (rand : ℕ → α) (k : ℕ)
    (sLo sHi lLo lHi : ℤ)
    (h0 : 0 ≤ rand k ∧ rand k < 1) (h1 : 0 ≤ rand (k + 1) ∧ rand (k + 1) < 1)
    (h2 : 0 ≤ rand (k + 2) ∧ rand (k + 2) < 1) (hs : sLo ≤ sHi) (hl : lLo ≤ lHi) :
    ∃ hue saturation lightness : ℤ,
      (0 ≤ hue ∧ hue < 360) ∧ (sLo ≤ saturation ∧ saturation ≤ sHi) ∧
      (lLo ≤ lightness ∧ lightness ≤ lHi) ∧
      (randomHSL rand k ((sLo : α), (sHi : α)) ((lLo : α), (lHi : α))).1 =
        { hue := (hue : α), saturation := (saturation : α), lightness := (lightness : α) } ∧
      (getRandomHSLColor str rand k ((sLo : α), (sHi : α)) ((lLo : α), (lHi : α))).1 =
        "hsl(" ++ str (hue : α) ++ ", " ++ str (saturation : α) ++ "%, " ++
          str (lightness : α) ++ "%)" := by
  refine ⟨Int.floor (rand k * 360),
    Int.floor (rand (k + 1) * ((sHi : α) - (sLo : α))) + sLo,
    Int.floor (rand (k + 2) * ((lHi : α) - (lLo : α))) + lLo, ⟨?_, ?_⟩,
    floor_scaled_range h1.1 h1.2 hs, floor_scaled_range h2.1 h2.2 hl, ?_, ?_⟩
  · exact Int.floor_nonneg.mpr (mul_nonneg h0.1 (by norm_num))
  · rw [Int.floor_lt]
    push_cast
    nlinarith [h0.2]
  · simp only [randomHSL]
    push_cast
    rfl
  · simp only [getRandomHSLColor, randomHSL, HSLColor.render]
    push_cast
    rfl

/-- Witness of C9: the draws `1/2, 1/2, 1/2` and the default ranges `[50, 100]`,
`[40, 80]`. -/
theorem getRandomHSLColor_in_ranges_witness :
    ∃ hue saturation lightness : ℤ,
      (0 ≤ hue ∧ hue < 360) ∧ (50 ≤ saturation ∧ saturation ≤ 100) ∧
      (40 ≤ lightness ∧ lightness ≤ 80) ∧
      (randomHSL (fun _ => (1 / 2 : ℚ)) 0 (((50 : ℤ) : ℚ), ((100 : ℤ) : ℚ))
        (((40 : ℤ) : ℚ), ((80 : ℤ) : ℚ))).1 =
        { hue := (hue : ℚ), saturation := (saturation : ℚ), lightness := (lightness : ℚ) } ∧
      (getRandomHSLColor (fun _ => "") (fun _ => (1 / 2 : ℚ)) 0
        (((50 : ℤ) : ℚ), ((100 : ℤ) : ℚ)) (((40 : ℤ) : ℚ), ((80 : ℤ) : ℚ))).1 =
        "hsl(" ++ (fun _ => "") (hue : ℚ) ++ ", " ++ (fun _ => "") (saturation : ℚ) ++
          "%, " ++ (fun _ => "") (lightness : ℚ) ++ "%)" :=
  getRandomHSLColor_in_ranges (fun _ => "") (fun _ => (1 / 2 : ℚ)) 0 50 100 40 80
    (by norm_num) (by norm_num) (by norm_num) (by norm_num) (by norm_num)

theorem intercalate_go_data (s : String) (l : List String) (acc : String) :
    ∃ r, (String.intercalate.go acc s l).data = acc.data ++ r := by
  induction l generalizing acc with
  | nil => exact ⟨[], by simp [String.intercalate.go]⟩
  | cons a as ih =>
    obtain ⟨r, hr⟩ := ih (acc ++ s ++ a)
    refine ⟨s.data ++ a.data ++ r, ?_⟩
    simp only [String.intercalate.go, hr, String.data_append, List.append_assoc]

omit [LinearOrderedField α] [FloorRing α] in
theorem render_data (str : α → String) (op : FilterOp α) :
    ∃ c r, (op.render str).data = c :: r ∧ c ≠ 'n' := by
  obtain ⟨kind, value⟩ := op
  cases kind
  · exact ⟨'h', _, by simp only [FilterOp.render, String.data_append]; rfl, by decide⟩
  · exact ⟨'b', _, by simp only [FilterOp.render, String.data_append]; rfl, by decide⟩
  · exact ⟨'b', _, by simp only [FilterOp.render, String.data_append]; rfl, by decide⟩
  · exact ⟨'c', _, by simp only [FilterOp.render, String.data_append]; rfl, by decide⟩
  · exact ⟨'s', _, by simp only [FilterOp.render, String.data_append]; rfl, by decide⟩
  · exact ⟨'d', _, by simp only [FilterOp.render, String.data_append]; rfl, by decide⟩

omit [LinearOrderedField α] [FloorRing α] in
/-- A joined non-empty list of rendered operations is never the string `none`. -/
theorem join_ne_none (str : α → String) (ops : List (FilterOp α)) (h : ops ≠ []) :
    " ".intercalate (ops.map (FilterOp.render str)) ≠ "none" := by
  cases ops with
  | nil => exact absurd rfl h
  | cons op rest =>
    intro hEq
    obtain ⟨r, hr⟩ := intercalate_go_data " " (rest.map (FilterOp.render str))
      (op.render str)
    obtain ⟨c, r2, hc, hn⟩ := render_data str op
    have hd := congrArg String.data hEq
    simp only [List.map_cons, String.intercalate] at hd
    rw [hr, hc] at hd
    have : c = 'n' := by
      have h3 : (c :: r2 ++ r).head? = ("none".data).head? := by rw [hd]
      simpa using h3
    exact hn this

omit [FloorRing α] in
theorem pushIf_sublist (rand : ℕ → α) (p : α) (kind : FilterKind) (value : α → α)
    (acc : List (FilterOp α) × ℕ) (L : List FilterKind)
    (h : (acc.1.map FilterOp.kind).Sublist L) :
    ((pushIf rand p kind value acc).1.map FilterOp.kind).Sublist (L ++ [kind]) := by
  unfold pushIf
  split_ifs
  · simp only [List.map_append, List.map_cons, List.map_nil]
    exact List.Sublist.append h (List.Sublist.refl _)
  · exact h.trans (List.sublist_append_left _ _)

theorem filterPushes_kinds (rand : ℕ → α) (k : ℕ) :
    ((filterPushes rand k).1.map FilterOp.kind).Sublist filterOrder := by
  unfold filterPushes
  exact pushIf_sublist _ _ _ _ _ _ (pushIf_sublist _ _ _ _ _ _ (pushIf_sublist _ _ _ _ _ _
    (pushIf_sublist _ _ _ _ _ _ (pushIf_sublist _ _ _ _ _ _
      (pushIf_sublist _ _ _ _ ([], k) [] (List.Sublist.refl _))))))

omit [FloorRing α] in
theorem pushIf_nil_iff (rand : ℕ → α) (p : α) (kind : FilterKind) (value : α → α)
    (acc : List (FilterOp α) × ℕ) (n : ℕ) (P : Prop) (h1 : acc.1 = [] ↔ P)
    (h2 : P → acc.2 = n) :
    ((pushIf rand p kind value acc).1 = [] ↔ P ∧ p ≤ rand n) ∧
      (P ∧ p ≤ rand n → (pushIf rand p kind value acc).2 = n + 1) := by
  unfold pushIf
  by_cases hP : P
  · have hn := h2 hP
    have he := h1.mpr hP
    by_cases c : rand acc.2 < p
    · have c2 : ¬ p ≤ rand n := by rw [← hn]; exact not_le.mpr c
      simp [c, c2]
    · have c2 : p ≤ rand n := by rw [← hn]; exact not_lt.mp c
      rw [if_neg c]
      simp [c2, hP, he, hn]
  · have he : ¬ acc.1 = [] := fun h => hP (h1.mp h)
    constructor
    · split_ifs <;> simp [hP, he]
    · intro h
      exact absurd h.1 hP

theorem filterPushes_eq_nil (rand : ℕ → α) (k : ℕ) :
    (filterPushes rand k).1 = [] ↔
      (0.7 ≤ rand k ∧ 0.5 ≤ rand (k + 1) ∧ 0.5 ≤ rand (k + 2) ∧ 0.5 ≤ rand (k + 3) ∧
        0.5 ≤ rand (k + 4) ∧ 0.3 ≤ rand (k + 5)) := by
  unfold filterPushes
  have s0 := pushIf_nil_iff rand 0.7 FilterKind.hueRotate
    (fun u => ((Int.floor (u * 360) : ℤ) : α)) ([], k) k True (by simp) (fun _ => rfl)
  have s1 := pushIf_nil_iff rand 0.5 FilterKind.blur (fun u => u * 1.5) _ _ _ s0.1 s0.2
  have s2 := pushIf_nil_iff rand 0.5 FilterKind.brightness (fun u => u * 0.5 + 0.75)
    _ _ _ s1.1 s1.2
  have s3 := pushIf_nil_iff rand 0.5 FilterKind.contrast (fun u => u * 0.5 + 0.75)
    _ _ _ s2.1 s2.2
  have s4 := pushIf_nil_iff rand 0.5 FilterKind.saturate (fun u => u * 1 + 0.9)
    _ _ _ s3.1 s3.2
  have s5 := pushIf_nil_iff rand 0.3 FilterKind.dropShadow (fun u => u * 10 + 5)
    _ _ _ s4.1 s4.2
  rw [s5.1]
  simp only [true_and, and_assoc]

/-- C8.  For every sequence of draws, `getRandomFilter` returns either `none` or the
space-joined renderings of a list of filter operations whose kinds form a duplicate-free
subsequence of the fixed order hue-rotate, blur, brightness, contrast, saturate,
drop-shadow; it returns `none` exactly when the first draw is at least `0.7` or none of
the six inclusion draws (which are then the next six draws) succeeds, and the two empty
cases return the same string. -/
theorem getRandomFilter_fixed_order (str : α → String) (rand : ℕ → α) (k : ℕ) :
    ((getRandomFilter str rand k).1 = "none" ∨
      ∃ ops : List (FilterOp α), ops ≠ [] ∧ ops = (filterPushes rand (k + 1)).1 ∧
        (getRandomFilter str rand k).1 = " ".intercalate (ops.map (FilterOp.render str)) ∧
        (ops.map FilterOp.kind).Sublist filterOrder ∧ (ops.map FilterOp.kind).Nodup) ∧
    ((getRandomFilter str rand k).1 = "none" ↔
      (0.7 ≤ rand k ∨
        (0.7 ≤ rand (k + 1) ∧ 0.5 ≤ rand (k + 2) ∧ 0.5 ≤ rand (k + 3) ∧
          0.5 ≤ rand (k + 4) ∧ 0.5 ≤ rand (k + 5) ∧ 0.3 ≤ rand (k + 6)))) := by
  have hsub := filterPushes_kinds rand (k + 1)
  have hnil := filterPushes_eq_nil rand (k + 1)
  by_cases c0 : rand k < 0.7
  · by_cases hops : (filterPushes rand (k + 1)).1 = []
    · have hres : (getRandomFilter str rand k).1 = "none" := by
        simp [getRandomFilter, c0, hops]
      exact ⟨Or.inl hres, iff_of_true hres (Or.inr (hnil.mp hops))⟩
    · have hlen : (filterPushes rand (k + 1)).1.length > 0 :=
        List.length_pos.mpr hops
      have hres : (getRandomFilter str rand k).1 =
          " ".intercalate ((filterPushes rand (k + 1)).1.map (FilterOp.render str)) := by
        simp only [getRandomFilter, c0, if_true, hlen]
      refine ⟨Or.inr ⟨_, hops, rfl, hres, hsub, hsub.nodup (by decide)⟩, ?_⟩
      rw [hres]
      refine iff_of_false (join_ne_none str _ hops) ?_
      rintro (h | h)
      · exact absurd c0 (not_lt.mpr h)
      · exact hops (hnil.mpr h)
  · have hres : (getRandomFilter str rand k).1 = "none" := by
      simp [getRandomFilter, c0]
    exact ⟨Or.inl hres, iff_of_true hres (Or.inl (not_lt.mp c0))⟩

end RandomStyleClaims

end EphemeralCanvas

namespace EphemeralCanvas

section PageLemmas

variable {α : Type} [LinearOrderedField α] [FloorRing α]

omit [FloorRing α] in
theorem popEarliest_eq_none {l : List (Timer α)} : popEarliest l = none ↔ l = [] := by
  cases l with
  | nil => simp [popEarliest]
  | cons t ts =>
    simp only [popEarliest]
    cases popEarliest ts with
    | none => simp
    | some p =>
      obtain ⟨u, rest⟩ := p
      simp only
      split_ifs <;> simp

omit [FloorRing α] in
/-- The timer taken out is a timer of the list, the others keep their order, the ones
before it are due strictly later and the ones after it are not due earlier. -/
theorem popEarliest_spec {l : List (Timer α)} {tm : Timer α} {rest : List (Timer α)}
    (h : popEarliest l = some (tm, rest)) :
    ∃ l1 l2, l = l1 ++ tm :: l2 ∧ rest = l1 ++ l2 ∧ (∀ x ∈ l1, tm.fire < x.fire) ∧
      (∀ x ∈ l2, tm.fire ≤ x.fire) := by
  induction l generalizing tm rest with
  | nil => simp [popEarliest] at h
  | cons t ts ih =>
    simp only [popEarliest] at h
    cases hp : popEarliest ts with
    | none =>
      rw [hp] at h
      simp only [Option.some.injEq, Prod.mk.injEq] at h
      obtain ⟨rfl, rfl⟩ := h
      have : ts = [] := popEarliest_eq_none.mp hp
      subst this
      exact ⟨[], [], rfl, rfl, by simp, by simp⟩
    | some p =>
      obtain ⟨u, r⟩ := p
      rw [hp] at h
      obtain ⟨l1, l2, hl, hr, h1, h2⟩ := ih hp
      simp only at h
      split_ifs at h with hlt
      · simp only [Option.some.injEq, Prod.mk.injEq] at h
        obtain ⟨rfl, rfl⟩ := h
        refine ⟨t :: l1, l2, by rw [hl]; rfl, by rw [hr]; rfl, ?_, h2⟩
        intro x hx
        rcases List.mem_cons.mp hx with rfl | hx
        · exact hlt
        · exact h1 x hx
      · simp only [Option.some.injEq, Prod.mk.injEq] at h
        obtain ⟨rfl, rfl⟩ := h
        refine ⟨[], ts, rfl, rfl, by simp, ?_⟩
        intro x hx
        have hle : t.fire ≤ u.fire := not_lt.mp hlt
        rw [hl] at hx
        rcases List.mem_append.mp hx with hx | hx
        · exact le_trans hle (h1 x hx).le
        · rcases List.mem_cons.mp hx with rfl | hx
          · exact hle
          · exact le_trans hle (h2 x hx)

omit [FloorRing α] in
/-- A timer that is due strictly before the timers registered before it and not after
the timers registered after it is the one taken out. -/
theorem popEarliest_of_min (l1 l2 : List (Timer α)) (tm : Timer α)
    (h1 : ∀ x ∈ l1, tm.fire < x.fire) (h2 : ∀ x ∈ l2, tm.fire ≤ x.fire) :
    popEarliest (l1 ++ tm :: l2) = some (tm, l1 ++ l2) := by
  induction l1 with
  | nil =>
    simp only [List.nil_append, popEarliest]
    cases hp : popEarliest l2 with
    | none =>
      have : l2 = [] := popEarliest_eq_none.mp hp
      subst this
      rfl
    | some p =>
      obtain ⟨u, r⟩ := p
      obtain ⟨m1, m2, hl, -, -, -⟩ := popEarliest_spec hp
      have hu : u ∈ l2 := by rw [hl]; simp
      simp only [if_neg (not_lt.mpr (h2 u hu))]
  | cons x l1 ih =>
    have ih2 := ih (fun y hy => h1 y (List.mem_cons_of_mem _ hy))
    show popEarliest (x :: (l1 ++ tm :: l2)) = some (tm, x :: (l1 ++ l2))
    rw [popEarliest, ih2]
    simp only [if_pos (h1 x (List.mem_cons_self _ _))]

omit [FloorRing α] in
/-- Three timers due in strictly increasing order fire in that order. -/
theorem popEarliest_three {a b c : Timer α} (hab : a.fire < b.fire) (hbc : b.fire < c.fire) :
    popEarliest [a, b, c] = some (a, [b, c]) ∧ popEarliest [b, c] = some (b, [c]) ∧
      popEarliest [c] = some (c, []) := by
  have h3 : popEarliest [c] = some (c, []) := by simp [popEarliest]
  have h2 : popEarliest [b, c] = some (b, [c]) := by
    rw [popEarliest, h3]
    simp [not_lt.mpr hbc.le]
  refine ⟨?_, h2, h3⟩
  rw [popEarliest, h2]
  simp [not_lt.mpr hab.le]

omit [LinearOrderedField α] [FloorRing α] in
theorem updateElement_getElem? (s : State α) (el : ℕ) (f : Element α → Element α) (i : ℕ) :
    (s.updateElement el f).elements[i]? =
      if i = el then (s.elements[i]?).map f else s.elements[i]? := by
  unfold State.updateElement
  cases h : s.elements[el]? with
  | none =>
    simp only
    split_ifs with hi
    · subst hi; simp [h]
    · rfl
  | some e =>
    simp only [List.getElem?_set]
    by_cases hi : i = el
    · subst hi
      have hlt : i < s.elements.length := by
        by_contra hge
        have h5 := List.getElem?_eq_none (not_lt.mp hge)
        rw [h] at h5
        exact absurd h5 (by simp)
      simp [h, hlt]
    · have hi2 : ¬ el = i := fun h => hi h.symm
      simp [hi, hi2]

omit [LinearOrderedField α] [FloorRing α] in
theorem updateElement_length (s : State α) (el : ℕ) (f : Element α → Element α) :
    (s.updateElement el f).elements.length = s.elements.length := by
  unfold State.updateElement
  cases s.elements[el]? <;> simp

omit [LinearOrderedField α] [FloorRing α] in
theorem updateElement_rest (s : State α) (el : ℕ) (f : Element α → Element α) :
    (s.updateElement el f).now = s.now ∧ (s.updateElement el f).children = s.children ∧
      (s.updateElement el f).timers = s.timers := by
  unfold State.updateElement
  cases s.elements[el]? <;> simp

/-- With draws in `[0, 1)` the click handler succeeds: it appends one new element, with
opacity `0`, to the elements and to the children and registers three timers, due `50`,
`f` and `f + 2000` after the click with `6000 ≤ f < 14000`. -/
theorem onClick_eq (Math : MathEnv α) (str : α → String) (s : State α) (clickX clickY : α)
    (rand : ℕ → α) (h : UnitDraws rand) :
    ∃ (e : Element α) (ft : String) (f : α),
      (6000 ≤ f ∧ f < 14000) ∧ (∃ k, f = rand k * 8000 + 6000) ∧ e.style.opacity = 0 ∧
      e.lifecycle = [LifecycleState.Spawned] ∧ e.classList = ["art-element"] ∧
      onClick Math str s clickX clickY rand = some
        { now := s.now
          elements := s.elements ++ [e]
          children := s.children ++ [s.elements.length]
          timers := s.timers ++
            [{ fire := s.now + 50, callback := Callback.settle s.elements.length ft },
              { fire := s.now + f, callback := Callback.fadeOut s.elements.length },
              { fire := s.now + (f + 2000),
                callback := Callback.remove s.elements.length }] } := by
  have hlen : (shapeFunctions Math).length = 6 := rfl
  have h0 := h 0
  have hnn : 0 ≤ Int.floor (rand 0 * (((shapeFunctions Math).length : ℕ) : α)) :=
    Int.floor_nonneg.mpr (mul_nonneg h0.1 (by rw [hlen]; norm_num))
  have hlt : Int.floor (rand 0 * (((shapeFunctions Math).length : ℕ) : α)) < 6 := by
    rw [Int.floor_lt, hlen]
    push_cast
    nlinarith [h0.2]
  have hidx : (Int.floor (rand 0 * (((shapeFunctions Math).length : ℕ) : α))).toNat <
      (shapeFunctions Math).length := by
    have : (Int.floor (rand 0 * (((shapeFunctions Math).length : ℕ) : α))).toNat < 6 := by
      omega
    exact this
  have hf := h (getRandomFilter str rand (getRandomFinalTransform str rand
    (getRandomInitialTransform str rand (getRandomHSLColor str rand
      (getRandomSize rand 1).2 (70, 100) (60, 90)).2).2).2).2
  refine ⟨?e, ?ft, ?f, ⟨?h1, ?h2⟩, ?h0, ?h3, ?h4, ?h5, ?h6⟩
  case h6 =>
    simp only [onClick, if_pos hnn, List.getElem?_eq_getElem hidx]
    exact rfl
  case h0 => exact ⟨_, rfl⟩
  case h1 => linarith [hf.1]
  case h2 => linarith [hf.2]
  case h3 => rfl
  case h4 => rfl
  case h5 => rfl

/-- A click at a time the clock has not passed, with draws in `[0, 1)`, succeeds and
leaves a pending timer. -/
theorem step_click_some (Math : MathEnv α) (str : α → String) (s : State α)
    (t clickX clickY : α) (rand : ℕ → α) (hnow : s.now ≤ t) (hrand : UnitDraws rand) :
    ∃ s1, step Math str s (Event.click t clickX clickY rand) = some s1 ∧ s1.timers ≠ [] := by
  obtain ⟨e0, ft, f, -, -, -, -, -, hclick⟩ :=
    onClick_eq Math str { s with now := t } clickX clickY rand hrand
  refine ⟨_, by simp only [step, if_pos hnow]; exact hclick, ?_⟩
  simp

/-- A timeout succeeds as soon as a timer is pending. -/
theorem step_timeout_some (Math : MathEnv α) (str : α → String) (s : State α)
    (rand : ℕ → α) (h : s.timers ≠ []) :
    ∃ s1, step Math str s (Event.timeout rand) = some s1 := by
  cases hp : popEarliest s.timers with
  | none => exact absurd (popEarliest_eq_none.mp hp) h
  | some p =>
    obtain ⟨tm, rest⟩ := p
    exact ⟨_, by simp only [step, hp]; exact rfl⟩

omit [FloorRing α] in
theorem runCallback_now_timers (str : α → String) (u : State α) (rand : ℕ → α)
    (cb : Callback) :
    (runCallback str u rand cb).now = u.now ∧ (runCallback str u rand cb).timers = u.timers ∧
      (runCallback str u rand cb).elements.length = u.elements.length := by
  unfold runCallback
  split_ifs <;> simp only [updateElement_rest, updateElement_length, and_self]

omit [FloorRing α] in
theorem runCallback_elements (str : α → String) (u : State α) (rand : ℕ → α)
    (cb : Callback) (i : ℕ) :
    (runCallback str u rand cb).elements[i]? =
      if i = cb.target then (u.elements[i]?).map (cb.update str rand) else u.elements[i]? := by
  unfold runCallback
  split_ifs <;> simp_all [updateElement_getElem?]

omit [FloorRing α] in
theorem runCallback_children (str : α → String) (u : State α) (rand : ℕ → α)
    (cb : Callback) :
    (runCallback str u rand cb).children =
      if cb.detaches then u.children.filter (fun c => c ≠ cb.target) else u.children := by
  unfold runCallback
  split_ifs <;> simp only [updateElement_rest]

omit [LinearOrderedField α] [FloorRing α] in
theorem flatMap_pair_length {β γ : Type} (l : List β) (n : ℕ) (a b : ℕ × β → γ) :
    ((l.enumFrom n).flatMap (fun p => [a p, b p])).length = 2 * l.length := by
  induction l generalizing n with
  | nil => rfl
  | cons y ys ih =>
    simp only [List.enumFrom_cons, List.flatMap_cons, List.length_append, List.length_cons,
      List.length_nil, ih]
    omega

omit [LinearOrderedField α] [FloorRing α] in
/-- Entry `2 i` and entry `2 i + 1` of the list of pairs made from an enumerated list are
the pair made from its entry `i`. -/
theorem flatMap_pair_getElem? {β γ : Type} (l : List β) (n : ℕ) (a b : ℕ × β → γ) (i : ℕ)
    (x : β) (h : l[i]? = some x) :
    ((l.enumFrom n).flatMap (fun p => [a p, b p]))[2 * i]? = some (a (n + i, x)) ∧
      ((l.enumFrom n).flatMap (fun p => [a p, b p]))[2 * i + 1]? = some (b (n + i, x)) := by
  induction l generalizing n i with
  | nil => simp at h
  | cons y ys ih =>
    cases i with
    | zero =>
      simp only [List.getElem?_cons_zero, Option.some.injEq] at h
      subst h
      simp [List.enumFrom_cons, List.flatMap_cons]
    | succ j =>
      simp only [List.getElem?_cons_succ] at h
      have := ih (n + 1) j h
      have e1 : 2 * (j + 1) = 2 * j + 2 := by ring
      have e2 : n + (j + 1) = n + 1 + j := by ring
      have e3 : 2 * j + 2 + 1 = 2 * j + 1 + 2 := by ring
      simp only [List.enumFrom_cons, List.flatMap_cons, e1, e2, e3, List.cons_append,
        List.nil_append, List.getElem?_cons_succ]
      exact this

/-- A timeout fires the timer that `popEarliest` takes out and runs its callback; the
remaining timers, the children and the elements of the new state. -/
theorem step_timeout_eq (Math : MathEnv α) (str : α → String) (s : State α) (rand : ℕ → α)
    {tm : Timer α} {rest : List (Timer α)} (hp : popEarliest s.timers = some (tm, rest)) :
    ∃ s1, step Math str s (Event.timeout rand) = some s1 ∧ s1.now = max s.now tm.fire ∧
      s1.timers = rest ∧
      s1.children = (if tm.callback.detaches then
        s.children.filter (fun c => c ≠ tm.callback.target) else s.children) ∧
      ∀ i, s1.elements[i]? = if i = tm.callback.target then
        (s.elements[i]?).map (tm.callback.update str rand) else s.elements[i]? := by
  refine ⟨_, by simp only [step, hp]; exact rfl, ?_, ?_, ?_, ?_⟩
  · simp only [runCallback_now_timers]
  · simp only [runCallback_now_timers]
  · simp only [runCallback_children]
  · intro i
    simp only [runCallback_elements]

theorem run_cons_some (Math : MathEnv α) (str : α → String) {s s1 : State α} {ev : Event α}
    (evs : List (Event α))
    (h : step Math str s ev = some s1) :
    run Math str s (ev :: evs) = run Math str s1 evs := by
  simp only [run, h]

end PageLemmas

end EphemeralCanvas

namespace EphemeralCanvas

section PageClaims

variable {α : Type} [LinearOrderedField α] [FloorRing α]

/-- An instance alone on the page.  A click at time `t0` on a page with no pending
timer, all draws in `[0, 1)`: the handler registers exactly three timers, due at
`t0 + 50`, `t0 + f` and `t0 + f + 2000` with `6000 ≤ f < 14000`; the first timeout fires
at `t0 + 50` and leaves an opacity in `[0.4, 0.9)`; the second fires at `t0 + f` and
leaves opacity `0`; the third fires at `t0 + f + 2000`, after which the instance is no
longer a child of the container and no timer is pending. -/
theorem single_instance_lifecycle (Math : MathEnv α) (str : α → String) (s : State α)
    (t0 clickX clickY : α) (rand r1 r2 r3 : ℕ → α)
    (hnow : s.now ≤ t0) (hidle : s.timers = []) (hrand : UnitDraws rand)
    (hr1 : UnitDraws r1) :
    ∃ (f : α) (ft : String) (s1 s2 s3 s4 : State α),
      (6000 ≤ f ∧ f < 14000) ∧ (50 < f ∧ f < f + 2000) ∧
      step Math str s (Event.click t0 clickX clickY rand) = some s1 ∧
      s1.timers =
        [{ fire := t0 + 50, callback := Callback.settle s.elements.length ft },
          { fire := t0 + f, callback := Callback.fadeOut s.elements.length },
          { fire := t0 + (f + 2000), callback := Callback.remove s.elements.length }] ∧
      s1.now = t0 ∧ s1.opacity s.elements.length = some 0 ∧
      s.elements.length ∈ s1.liveInstances ∧
      step Math str s1 (Event.timeout r1) = some s2 ∧ s2.now = t0 + 50 ∧
      (∃ o, s2.opacity s.elements.length = some o ∧ 0.4 ≤ o ∧ o < 0.9) ∧
      s.elements.length ∈ s2.liveInstances ∧
      step Math str s2 (Event.timeout r2) = some s3 ∧ s3.now = t0 + f ∧
      s3.opacity s.elements.length = some 0 ∧ s.elements.length ∈ s3.liveInstances ∧
      step Math str s3 (Event.timeout r3) = some s4 ∧ s4.now = t0 + (f + 2000) ∧
      s.elements.length ∉ s4.liveInstances ∧ s.elements.length ∉ s4.children ∧
      s4.timers = [] := by
  obtain ⟨e, ft, f, ⟨hf1, hf2⟩, -, ho, hl, hc, hclick⟩ :=
    onClick_eq Math str { s with now := t0 } clickX clickY rand hrand
  simp only [hidle, List.nil_append] at hclick
  have hab : t0 + 50 < t0 + f := by linarith
  have hbc : t0 + f < t0 + (f + 2000) := by linarith
  obtain ⟨p1, p2, p3⟩ := popEarliest_three
    (a := { fire := t0 + 50, callback := Callback.settle s.elements.length ft })
    (b := { fire := t0 + f, callback := Callback.fadeOut s.elements.length })
    (c := { fire := t0 + (f + 2000), callback := Callback.remove s.elements.length })
    hab hbc
  have hr10 := hr1 0
  have m1 : max t0 (t0 + 50) = t0 + 50 := max_eq_right (by linarith)
  have m2 : max (t0 + 50) (t0 + f) = t0 + f := max_eq_right (by linarith)
  have m3 : max (t0 + f) (t0 + (f + 2000)) = t0 + (f + 2000) := max_eq_right (by linarith)
  refine ⟨f, ft, ?s1, ?s2, ?s3, ?s4, ⟨hf1, hf2⟩, ⟨by linarith, by linarith⟩, ?step1, ?tm1,
    ?now1, ?op1, ?live1, ?step2, ?now2, ?op2, ?live2, ?step3, ?now3, ?op3, ?live3, ?step4,
    ?now4, ?live4, ?ch4, ?tm4⟩
  case step1 =>
    simp only [step, if_pos hnow, hidle]
    exact hclick
  case tm1 => rfl
  case now1 => rfl
  case op1 => simp [State.opacity, ho]
  case live1 => simp [State.liveInstances, hc]
  case step2 =>
    simp only [step, p1]
    exact rfl
  case now2 =>
    simp only [runCallback_now_timers]
    exact m1
  case op2 =>
    refine ⟨r1 0 * 0.5 + 0.4, ?_, by linarith [hr10.1], by linarith [hr10.2]⟩
    simp [State.opacity, runCallback_elements, Callback.target, Callback.update]
  case live2 =>
    simp [State.liveInstances, runCallback_elements, runCallback_children, Callback.target,
      Callback.update, Callback.detaches, hc]
  case step3 =>
    simp only [step, runCallback_now_timers, p2]
    exact rfl
  case now3 =>
    simp only [runCallback_now_timers, m1]
    exact m2
  case op3 =>
    simp [State.opacity, runCallback_elements, Callback.target, Callback.update]
  case live3 =>
    simp [State.liveInstances, runCallback_elements, runCallback_children, Callback.target,
      Callback.update, Callback.detaches, hc]
  case step4 =>
    simp only [step, runCallback_now_timers, p3]
    exact rfl
  case now4 =>
    simp only [runCallback_now_timers, m1, m2]
    exact m3
  case live4 =>
    simp [State.liveInstances, runCallback_elements, runCallback_children, Callback.target,
      Callback.update, Callback.detaches, hc]
  case ch4 => simp [runCallback_children, Callback.target, Callback.detaches]
  case tm4 => simp only [runCallback_now_timers]

/-- C6.  A clear-all at time `t` with `N` live instances registers exactly `2 N` timers
and changes nothing else: for the instance `el` at index `i` in display order, one due at
`t + 30 i` and one due at `t + 30 i + 1500`.  When the first fires on time it sets the
opacity of `el` to `0` and appends ` scale(0.5)` to its current transform, so `el` has
opacity `0` at `t + 30 i`; when the second fires on time it detaches `el`, which is then
absent from the live instances at `t + 30 i + 1500`. -/
theorem clearAll_schedule (Math : MathEnv α) (str : α → String) (s : State α) (t : α)
    (hnow : s.now ≤ t) :
    ∃ (s1 : State α) (new : List (Timer α)),
      step Math str s (Event.clearAll t) = some s1 ∧
      s1.now = t ∧ s1.elements = s.elements ∧ s1.children = s.children ∧
      s1.timers = s.timers ++ new ∧ new.length = 2 * s.liveInstances.length ∧
      ∀ (i el : ℕ), s.liveInstances[i]? = some el →
        new[2 * i]? = some { fire := t + 30 * (i : α), callback := Callback.clearFade el } ∧
        new[2 * i + 1]? =
          some { fire := t + 30 * (i : α) + 1500, callback := Callback.clearRemove el } ∧
        (∀ (u : State α) (rest : List (Timer α)) (rand : ℕ → α) (e : Element α),
          u.elements[el]? = some e → u.now ≤ t + 30 * (i : α) →
          popEarliest u.timers =
            some ({ fire := t + 30 * (i : α), callback := Callback.clearFade el }, rest) →
          ∃ u1, step Math str u (Event.timeout rand) = some u1 ∧ u1.now = t + 30 * (i : α) ∧
            u1.opacity el = some 0 ∧
            u1.transform el = some (e.style.transform ++ " scale(0.5)")) ∧
        (∀ (u : State α) (rest : List (Timer α)) (rand : ℕ → α),
          u.now ≤ t + 30 * (i : α) + 1500 →
          popEarliest u.timers =
            some ({ fire := t + 30 * (i : α) + 1500, callback := Callback.clearRemove el },
              rest) →
          ∃ u1, step Math str u (Event.timeout rand) = some u1 ∧
            u1.now = t + 30 * (i : α) + 1500 ∧ el ∉ u1.children ∧
            el ∉ u1.liveInstances) := by
  refine ⟨onClearAll { s with now := t },
    s.liveInstances.enum.flatMap (fun (p : ℕ × ℕ) =>
      [({ fire := t + (p.1 : α) * 30, callback := Callback.clearFade p.2 } : Timer α),
        { fire := t + ((p.1 : α) * 30 + 1500), callback := Callback.clearRemove p.2 }]),
    by simp only [step, if_pos hnow], rfl, rfl, rfl, rfl, ?_, ?_⟩
  · exact flatMap_pair_length _ _ _ _
  · intro i el hi
    have hp := flatMap_pair_getElem? s.liveInstances 0
      (fun (p : ℕ × ℕ) =>
        ({ fire := t + (p.1 : α) * 30, callback := Callback.clearFade p.2 } : Timer α))
      (fun (p : ℕ × ℕ) =>
        ({ fire := t + ((p.1 : α) * 30 + 1500), callback := Callback.clearRemove p.2 } :
          Timer α)) i el hi
    have e1 : t + ((0 + i : ℕ) : α) * 30 = t + 30 * (i : α) := by
      push_cast; ring
    have e2 : t + (((0 + i : ℕ) : α) * 30 + 1500) = t + 30 * (i : α) + 1500 := by
      push_cast; ring
    simp only [e1, e2] at hp
    refine ⟨hp.1, hp.2, ?_, ?_⟩
    · intro u rest rand e he hu hpop
      refine ⟨_, by simp only [step, hpop]; exact rfl, ?_, ?_, ?_⟩
      · simp only [runCallback_now_timers]
        exact max_eq_right hu
      · simp [State.opacity, runCallback_elements, Callback.target, Callback.update, he]
      · simp [State.transform, runCallback_elements, Callback.target, Callback.update, he]
    · intro u rest rand hu hpop
      refine ⟨_, by simp only [step, hpop]; exact rfl, ?_, ?_, ?_⟩
      · simp only [runCallback_now_timers]
        exact max_eq_right hu
      · simp [runCallback_children, Callback.target, Callback.detaches]
      · simp [State.liveInstances, runCallback_children, Callback.target,
          Callback.detaches]

end PageClaims

end EphemeralCanvas

namespace EphemeralCanvas

section NaturalLifecycle

variable {α : Type} [LinearOrderedField α] [FloorRing α]

omit [FloorRing α] in
/-- If the timer `tm` sits in a list whose head `A` is due strictly before all the
others, and every timer before `tm` is due strictly after `tm`, then `tm` is the head. -/
theorem head_of_strict_min {F1 F2 R : List (Timer α)} {tm A : Timer α}
    (h : F1 ++ tm :: F2 = A :: R) (h1 : ∀ x ∈ F1, tm.fire < x.fire)
    (h2 : ∀ x ∈ R, A.fire < x.fire) : F1 = [] ∧ tm = A ∧ F2 = R := by
  cases F1 with
  | nil =>
    simp only [List.nil_append, List.cons.injEq] at h
    exact ⟨rfl, h.1, h.2⟩
  | cons x F1 =>
    simp only [List.cons_append, List.cons.injEq] at h
    obtain ⟨rfl, hR⟩ := h
    have htm : tm ∈ R := by rw [← hR]; simp
    have := h2 tm htm
    have := h1 x (List.mem_cons_self _ _)
    exact absurd (lt_trans ‹x.fire < tm.fire› this) (lt_irrefl _)

omit [FloorRing α] in
theorem natural_init : (State.init : State α).Natural := by
  refine ⟨by simp [State.init], ?_⟩
  intro el e he
  simp [State.init] at he

omit [FloorRing α] in
/-- A page in which every element is in a natural stage satisfies the claim on
lifecycles. -/
theorem natural_ordered {s : State α} (h : s.Natural) : s.LifecycleOrdered := by
  intro el e he
  have hn := h.2 el e he
  have key : ∀ tm ∈ s.timers, s.timersFor el = [] → tm.callback.target ≠ el := by
    intro tm htm hnil hEq
    have : tm ∈ s.timersFor el := by
      simp only [State.timersFor, List.mem_filter, decide_eq_true_eq]
      exact ⟨htm, hEq⟩
    rw [hnil] at this
    exact absurd this (List.not_mem_nil _)
  rcases hn with ⟨hl, ha, -⟩ | ⟨hl, ha, -⟩ | ⟨hl, ha, -⟩ | ⟨hl, ha, hp⟩
  · rw [hl]
    exact ⟨⟨by simp, by decide⟩, by simp [ha], fun hna => absurd ha hna⟩
  · rw [hl]
    exact ⟨⟨by simp, by decide⟩, by simp [ha], fun hna => absurd ha hna⟩
  · rw [hl]
    exact ⟨⟨by simp, by decide⟩, by simp [ha], fun hna => absurd ha hna⟩
  · rw [hl]
    exact ⟨⟨by simp, by decide⟩, by simp [ha], fun _ tm htm => key tm htm hp⟩

/-- A click with draws in `[0, 1)` keeps the page natural. -/
theorem natural_click (Math : MathEnv α) (str : α → String) {s s1 : State α}
    (t clickX clickY : α) (rand : ℕ → α) (hrand : UnitDraws rand) (h : s.Natural)
    (hstep : step Math str s (Event.click t clickX clickY rand) = some s1) : s1.Natural := by
  obtain ⟨e0, ft, f, ⟨hf1, hf2⟩, -, ho, hl, hc, hclick⟩ :=
    onClick_eq Math str { s with now := t } clickX clickY rand hrand
  simp only [step] at hstep
  split_ifs at hstep with hnow
  rw [hclick] at hstep
  simp only [Option.some.injEq] at hstep
  subst hstep
  constructor
  · intro tm htm
    simp only [List.mem_append, List.mem_cons, List.mem_singleton, List.not_mem_nil,
      or_false] at htm
    simp only [List.length_append, List.length_singleton]
    rcases htm with htm | rfl | rfl | rfl
    · exact Nat.lt_succ_of_lt (h.1 tm htm)
    · exact Nat.lt_succ_self _
    · exact Nat.lt_succ_self _
    · exact Nat.lt_succ_self _
  · intro el e he
    have hold : ∀ x ∈ s.timers, ¬ x.callback.target = s.elements.length := fun x hx =>
      Nat.ne_of_lt (h.1 x hx)
    by_cases hel : el < s.elements.length
    · have he2 : s.elements[el]? = some e := by
        simpa [List.getElem?_append_left hel] using he
      have hne : ¬ s.elements.length = el := Nat.ne_of_gt hel
      have hne2 : ¬ el = s.elements.length := Nat.ne_of_lt hel
      have hn := h.2 el e he2
      have htf : State.timersFor
          { now := t, elements := s.elements ++ [e0],
            children := s.children ++ [s.elements.length],
            timers := s.timers ++
              [{ fire := t + 50, callback := Callback.settle s.elements.length ft },
                { fire := t + f, callback := Callback.fadeOut s.elements.length },
                { fire := t + (f + 2000),
                  callback := Callback.remove s.elements.length }] } el =
          s.timersFor el := by
        simp [State.timersFor, List.filter_append, Callback.target, hne]
      have hat : State.Attached
          { now := t, elements := s.elements ++ [e0],
            children := s.children ++ [s.elements.length],
            timers := s.timers ++
              [{ fire := t + 50, callback := Callback.settle s.elements.length ft },
                { fire := t + f, callback := Callback.fadeOut s.elements.length },
                { fire := t + (f + 2000),
                  callback := Callback.remove s.elements.length }] } el ↔
          s.Attached el := by
        simp [State.Attached, hne2]
      rw [htf]
      simpa only [NaturalStage, hat] using hn
    · have hlen : el < (s.elements ++ [e0]).length := by
        by_contra hge
        have := List.getElem?_eq_none (not_lt.mp hge)
        simp only at he
        rw [this] at he
        exact absurd he (by simp)
      have hel2 : el = s.elements.length := by
        simp only [List.length_append, List.length_singleton] at hlen
        omega
      subst hel2
      have he0 : e = e0 := by
        simpa using he.symm
      subst he0
      left
      refine ⟨hl, by simp [State.Attached], ft, t + 50, t + f, t + (f + 2000), ?_,
        by linarith, by linarith⟩
      have hnil : s.timers.filter (fun tm => tm.callback.target = s.elements.length) = [] := by
        rw [List.filter_eq_nil_iff]
        intro x hx
        simpa using hold x hx
      simp only [State.timersFor, List.filter_append, hnil, List.nil_append]
      simp [Callback.target]

omit [FloorRing α] in
/-- Firing the timer that is due first keeps the page natural. -/
theorem natural_timeout (str : α → String) {s : State α} {tm : Timer α}
    {rest : List (Timer α)} (rand : ℕ → α) (h : s.Natural)
    (hpop : popEarliest s.timers = some (tm, rest)) :
    (runCallback str { s with now := max s.now tm.fire, timers := rest } rand
      tm.callback).Natural := by
  obtain ⟨l1, l2, hl, hr, hlt, -⟩ := popEarliest_spec hpop
  have htm : tm ∈ s.timers := by rw [hl]; simp
  have hT := h.1 tm htm
  have hrest : ∀ x ∈ rest, x ∈ s.timers := by
    intro x hx
    rw [hr] at hx
    rw [hl]
    rcases List.mem_append.mp hx with hx | hx
    · exact List.mem_append_left _ hx
    · exact List.mem_append_right _ (List.mem_cons_of_mem _ hx)
  constructor
  · intro x hx
    simp only [runCallback_now_timers] at hx ⊢
    exact h.1 x (hrest x hx)
  · intro el e he
    rw [runCallback_elements] at he
    have hch := runCallback_children str
      { s with now := max s.now tm.fire, timers := rest } rand tm.callback
    have htf : State.timersFor (runCallback str
        { s with now := max s.now tm.fire, timers := rest } rand tm.callback) el =
        l1.filter (fun x => x.callback.target = el) ++
          l2.filter (fun x => x.callback.target = el) := by
      simp only [State.timersFor, runCallback_now_timers, hr, List.filter_append]
    have hsf : s.timersFor el = l1.filter (fun x => x.callback.target = el) ++
        (if tm.callback.target = el then [tm] else []) ++
          l2.filter (fun x => x.callback.target = el) := by
      simp only [State.timersFor, hl, List.filter_append, List.filter_cons]
      split_ifs <;> simp_all
    by_cases hel : el = tm.callback.target
    · subst hel
      simp only [if_true] at he
      cases he0 : s.elements[tm.callback.target]? with
      | none => simp [he0] at he
      | some e0 =>
        simp only [he0, Option.map_some', Option.some.injEq] at he
        subst he
        have hn := h.2 _ e0 he0
        simp only [if_true] at hsf
        have hlt2 : ∀ x ∈ l1.filter (fun x => x.callback.target = tm.callback.target),
            tm.fire < x.fire := fun x hx => hlt x (List.mem_of_mem_filter hx)
        rw [htf]
        rcases hn with ⟨hlc, ha, ft, a, b, c, hp, hab, hbc⟩ | ⟨hlc, ha, b, c, hp, hbc⟩ |
          ⟨hlc, ha, c, hp⟩ | ⟨hlc, ha, hp⟩
        · rw [hsf] at hp
          simp only [List.append_assoc, List.singleton_append] at hp
          obtain ⟨h1, h2, h3⟩ := head_of_strict_min hp hlt2 (by
            intro x hx
            simp only [List.mem_cons, List.mem_singleton, List.not_mem_nil, or_false] at hx
            rcases hx with rfl | rfl
            · exact hab
            · exact lt_trans hab hbc)
          have hcb : tm.callback = Callback.settle tm.callback.target ft :=
            congrArg Timer.callback h2
          right; left
          refine ⟨?_, ?_, b, c, ?_, hbc⟩
          · rw [hcb]; simp [Callback.update, hlc]
          · simp only [State.Attached, hch]
            rw [hcb]
            simpa [Callback.detaches] using ha
          · rw [h1, h3]; rfl
        · rw [hsf] at hp
          simp only [List.append_assoc, List.singleton_append] at hp
          obtain ⟨h1, h2, h3⟩ := head_of_strict_min hp hlt2 (by
            intro x hx
            simp only [List.mem_singleton] at hx
            subst hx
            exact hbc)
          have hcb : tm.callback = Callback.fadeOut tm.callback.target :=
            congrArg Timer.callback h2
          right; right; left
          refine ⟨?_, ?_, c, ?_⟩
          · rw [hcb]; simp [Callback.update, hlc]
          · simp only [State.Attached, hch]
            rw [hcb]
            simpa [Callback.detaches] using ha
          · rw [h1, h3]; rfl
        · rw [hsf] at hp
          simp only [List.append_assoc, List.singleton_append] at hp
          obtain ⟨h1, h2, h3⟩ := head_of_strict_min hp hlt2 (by simp)
          have hcb : tm.callback = Callback.remove tm.callback.target :=
            congrArg Timer.callback h2
          right; right; right
          refine ⟨?_, ?_, ?_⟩
          · rw [hcb]; simp [Callback.update, hlc]
          · simp only [State.Attached, hch]
            rw [hcb]
            simp [Callback.detaches, Callback.target]
          · rw [h1, h3]; rfl
        · rw [hsf] at hp
          simp at hp
    · have hel2 : ¬ tm.callback.target = el := fun h => hel h.symm
      simp only [if_neg hel] at he
      have hn := h.2 el e he
      have hsf2 : s.timersFor el = l1.filter (fun x => x.callback.target = el) ++
          l2.filter (fun x => x.callback.target = el) := by
        rw [hsf, if_neg hel2, List.append_nil]
      have hat : State.Attached (runCallback str
          { s with now := max s.now tm.fire, timers := rest } rand tm.callback) el ↔
          s.Attached el := by
        simp only [State.Attached, hch]
        split_ifs
        · simp [List.mem_filter, hel]
        · rfl
      rw [htf, ← hsf2]
      simpa only [NaturalStage, hat] using hn

/-- One step other than a clear-all, with draws in `[0, 1)`, keeps the page natural. -/
theorem natural_step (Math : MathEnv α) (str : α → String) {s s1 : State α} (ev : Event α)
    (hd : ev.UnitDraws) (hc : ev.isClearAll = false) (h : s.Natural)
    (hstep : step Math str s ev = some s1) : s1.Natural := by
  cases ev with
  | click t clickX clickY rand => exact natural_click Math str t clickX clickY rand hd h hstep
  | clearAll t => simp [Event.isClearAll] at hc
  | timeout rand =>
    simp only [step] at hstep
    cases hpop : popEarliest s.timers with
    | none => simp [hpop] at hstep
    | some p =>
      obtain ⟨tm, rest⟩ := p
      simp only [hpop, Option.some.injEq] at hstep
      subst hstep
      exact natural_timeout str rand h hpop

theorem natural_run (Math : MathEnv α) (str : α → String) (evs : List (Event α))
    (hev : ∀ ev ∈ evs, ev.UnitDraws ∧ ev.isClearAll = false) {s s1 : State α}
    (h : s.Natural) (hrun : run Math str s evs = some s1) : s1.Natural := by
  induction evs generalizing s with
  | nil =>
    simp only [run, Option.some.injEq] at hrun
    subst hrun
    exact h
  | cons ev evs ih =>
    simp only [run] at hrun
    cases hs : step Math str s ev with
    | none => simp [hs] at hrun
    | some s2 =>
      simp only [hs] at hrun
      have hev1 := hev ev (List.mem_cons_self _ _)
      exact ih (fun e he => hev e (List.mem_cons_of_mem _ he))
        (natural_step Math str ev hev1.1 hev1.2 h hs) hrun

end NaturalLifecycle

end EphemeralCanvas

namespace EphemeralCanvas

section LifecycleClaims

theorem zeroDraws_unit : UnitDraws zeroDraws := by
  intro n
  simp only [zeroDraws]
  norm_num

/-- The instance alone on the page, at a click at time `0` on the empty page with all
draws `0`. -/
theorem single_instance_lifecycle_witness :
    ∃ (f : ℚ) (s1 s2 s3 s4 : State ℚ),
      (6000 ≤ f ∧ f < 14000) ∧ (50 < f ∧ f < f + 2000) ∧
      step ratMath ratStr State.init (Event.click 0 100 50 zeroDraws) = some s1 ∧
      s1.opacity 0 = some 0 ∧
      step ratMath ratStr s1 (Event.timeout zeroDraws) = some s2 ∧ s2.now = 0 + 50 ∧
      (∃ o, s2.opacity 0 = some o ∧ 0.4 ≤ o ∧ o < 0.9) ∧
      step ratMath ratStr s2 (Event.timeout zeroDraws) = some s3 ∧ s3.now = 0 + f ∧
      s3.opacity 0 = some 0 ∧
      step ratMath ratStr s3 (Event.timeout zeroDraws) = some s4 ∧
      s4.now = 0 + (f + 2000) ∧ 0 ∉ s4.liveInstances ∧ s4.timers = [] := by
  obtain ⟨f, ft, s1, s2, s3, s4, h1, h2, h3, -, -, h4, -, h5, h6, h7, -, h8, h9, h10, -,
    h11, h12, h13, -, h14⟩ :=
    single_instance_lifecycle ratMath ratStr State.init 0 100 50 zeroDraws zeroDraws
      zeroDraws zeroDraws (le_refl _) rfl zeroDraws_unit zeroDraws_unit
  exact ⟨f, s1, s2, s3, s4, h1, h2, h3, h4, h5, h6, h7, h8, h9, h10, h11, h12, h13, h14⟩

/-- Witness of C6: a clear-all at time `200` on a page with two live instances; the
timers of the instance at index `1` are due at `200 + 30` and `200 + 30 + 1500`. -/
theorem clearAll_schedule_witness :
    demoState.liveInstances = [0, 1] ∧
    ∃ (s1 : State ℚ) (new : List (Timer ℚ)),
      step ratMath ratStr demoState (Event.clearAll 200) = some s1 ∧
      s1.timers = demoState.timers ++ new ∧ new.length = 2 * demoState.liveInstances.length ∧
      new[2 * 0]? = some { fire := 200 + 30 * ((0 : ℕ) : ℚ), callback := Callback.clearFade 0 } ∧
      new[2 * 0 + 1]? =
        some { fire := 200 + 30 * ((0 : ℕ) : ℚ) + 1500, callback := Callback.clearRemove 0 } ∧
      new[2 * 1]? = some { fire := 200 + 30 * ((1 : ℕ) : ℚ), callback := Callback.clearFade 1 } ∧
      new[2 * 1 + 1]? =
        some { fire := 200 + 30 * ((1 : ℕ) : ℚ) + 1500, callback := Callback.clearRemove 1 } := by
  have hlive : demoState.liveInstances = [0, 1] := by decide
  obtain ⟨s1, new, h1, -, -, -, h2, h3, h4⟩ :=
    clearAll_schedule ratMath ratStr demoState 200 (by norm_num [demoState])
  have h5 := h4 0 0 (by rw [hlive]; rfl)
  have h6 := h4 1 1 (by rw [hlive]; rfl)
  exact ⟨hlive, s1, new, h1, h2, h3, h5.1, h5.2.1, h6.1, h6.2.1⟩

/-- C7 fails on the code.  A click at time `0` with all draws `0` (so the fade-out delay
is `6000`), the timeout of its settle timer at `50`, a clear-all at time `1000` and the
timeouts of the two timers of the clear-all at `1000` and `2500`: the instance is now
detached, yet the two timers of the click, due at `6000` and `8000`, are still pending for
it.  Two more timeouts fire them on the detached instance, which goes back from `Removed`
to `FadingOut` and enters `Removed` a second time. -/
theorem clearAll_breaks_lifecycle_order :
    ∃ (s s2 : State ℚ),
      run ratMath ratStr State.init
        [Event.click 0 100 50 zeroDraws, Event.timeout zeroDraws, Event.clearAll 1000,
          Event.timeout zeroDraws, Event.timeout zeroDraws] = some s ∧
      s.lifecycle 0 = some [LifecycleState.Spawned, LifecycleState.Settling,
        LifecycleState.FadingOut, LifecycleState.Removed] ∧
      ¬ s.Attached 0 ∧
      s.timers = [{ fire := 6000, callback := Callback.fadeOut 0 },
        { fire := 8000, callback := Callback.remove 0 }] ∧
      ¬ s.LifecycleOrdered ∧
      run ratMath ratStr State.init
        [Event.click 0 100 50 zeroDraws, Event.timeout zeroDraws, Event.clearAll 1000,
          Event.timeout zeroDraws, Event.timeout zeroDraws, Event.timeout zeroDraws,
          Event.timeout zeroDraws] = some s2 ∧
      s2.lifecycle 0 = some [LifecycleState.Spawned, LifecycleState.Settling,
        LifecycleState.FadingOut, LifecycleState.Removed, LifecycleState.FadingOut,
        LifecycleState.Removed] ∧
      ¬ s2.LifecycleOrdered := by
  obtain ⟨e0, ft, f, -, ⟨k, hk⟩, ho, hl, hc, hclick⟩ :=
    onClick_eq ratMath ratStr { (State.init : State ℚ) with now := 0 } 100 50 zeroDraws
      zeroDraws_unit
  have hf : f = 6000 := by
    rw [hk]
    simp [zeroDraws]
  subst hf
  simp only [State.init, List.nil_append, List.length_nil, zero_add] at hclick
  norm_num at hclick
  have hs1 : step ratMath ratStr State.init (Event.click 0 100 50 zeroDraws) = some
      { now := 0, elements := [e0], children := [0],
        timers := [{ fire := 50, callback := Callback.settle 0 ft },
          { fire := 6000, callback := Callback.fadeOut 0 },
          { fire := 8000, callback := Callback.remove 0 }] } := by
    simp only [step, State.init, le_refl, if_true]
    exact hclick
  have hp1 := popEarliest_of_min (α := ℚ) []
    [{ fire := 6000, callback := Callback.fadeOut 0 },
      { fire := 8000, callback := Callback.remove 0 }]
    { fire := 50, callback := Callback.settle 0 ft }
    (by simp)
    (by
      intro x hx
      simp only [List.mem_cons, List.mem_singleton, List.not_mem_nil, or_false] at hx
      rcases hx with rfl | rfl <;> norm_num)
  simp only [List.nil_append] at hp1
  obtain ⟨S2, hs2, hn2, ht2, hc2, he2⟩ := step_timeout_eq ratMath ratStr
    { now := 0, elements := [e0], children := [0],
      timers := [{ fire := 50, callback := Callback.settle 0 ft },
        { fire := 6000, callback := Callback.fadeOut 0 },
        { fire := 8000, callback := Callback.remove 0 }] } zeroDraws hp1
  simp only [Callback.detaches, Callback.target] at hc2 he2
  have hn2b : S2.now ≤ 1000 := by
    rw [hn2]
    norm_num
  have hlive : ∀ (n : ℚ) (tms : List (Timer ℚ)), State.liveInstances
      { now := n, elements := S2.elements, children := S2.children, timers := tms } = [0] := by
    intro n tms
    simp [State.liveInstances, hc2, he2, Callback.update, hc]
  have hs3 : step ratMath ratStr S2 (Event.clearAll 1000) = some
      { now := 1000, elements := S2.elements, children := S2.children,
        timers := [{ fire := 6000, callback := Callback.fadeOut 0 },
          { fire := 8000, callback := Callback.remove 0 },
          { fire := 1000, callback := Callback.clearFade 0 },
          { fire := 2500, callback := Callback.clearRemove 0 }] } := by
    simp only [step, if_pos hn2b, onClearAll, hlive, ht2]
    norm_num [List.enum, List.enumFrom]
  have hp3 := popEarliest_of_min (α := ℚ)
    [{ fire := 6000, callback := Callback.fadeOut 0 },
      { fire := 8000, callback := Callback.remove 0 }]
    [{ fire := 2500, callback := Callback.clearRemove 0 }]
    { fire := 1000, callback := Callback.clearFade 0 }
    (by
      intro x hx
      simp only [List.mem_cons, List.mem_singleton, List.not_mem_nil, or_false] at hx
      rcases hx with rfl | rfl <;> norm_num)
    (by
      intro x hx
      simp only [List.mem_singleton] at hx
      subst hx
      norm_num)
  simp only [List.cons_append, List.nil_append] at hp3
  obtain ⟨S4, hs4, -, ht4, hc4, he4⟩ := step_timeout_eq ratMath ratStr
    { now := 1000, elements := S2.elements, children := S2.children,
      timers := [{ fire := 6000, callback := Callback.fadeOut 0 },
        { fire := 8000, callback := Callback.remove 0 },
        { fire := 1000, callback := Callback.clearFade 0 },
        { fire := 2500, callback := Callback.clearRemove 0 }] } zeroDraws hp3
  simp only [Callback.detaches, Callback.target] at hc4 he4
  have hp4 := popEarliest_of_min (α := ℚ)
    [{ fire := 6000, callback := Callback.fadeOut 0 },
      { fire := 8000, callback := Callback.remove 0 }] []
    { fire := 2500, callback := Callback.clearRemove 0 }
    (by
      intro x hx
      simp only [List.mem_cons, List.mem_singleton, List.not_mem_nil, or_false] at hx
      rcases hx with rfl | rfl <;> norm_num)
    (by simp)
  simp only [List.cons_append, List.nil_append, List.append_nil] at hp4
  rw [← ht4] at hp4
  obtain ⟨S5, hs5, -, ht5, hc5, he5⟩ := step_timeout_eq ratMath ratStr S4 zeroDraws hp4
  simp only [Callback.detaches, Callback.target] at hc5 he5
  have hp5 : popEarliest S5.timers = some
      ({ fire := 6000, callback := Callback.fadeOut 0 },
        [{ fire := 8000, callback := Callback.remove 0 }]) := by
    rw [ht5]
    exact (popEarliest_three (α := ℚ) (a := { fire := 50, callback := Callback.settle 0 ft })
      (b := { fire := 6000, callback := Callback.fadeOut 0 })
      (c := { fire := 8000, callback := Callback.remove 0 })
      (by norm_num) (by norm_num)).2.1
  obtain ⟨S6, hs6, -, ht6, hc6, he6⟩ := step_timeout_eq ratMath ratStr S5 zeroDraws hp5
  simp only [Callback.detaches, Callback.target] at hc6 he6
  have hp6 : popEarliest S6.timers = some
      ({ fire := 8000, callback := Callback.remove 0 }, []) := by
    rw [ht6]
    simp [popEarliest]
  obtain ⟨S7, hs7, -, ht7, hc7, he7⟩ := step_timeout_eq ratMath ratStr S6 zeroDraws hp6
  simp only [Callback.detaches, Callback.target] at hc7 he7
  have hrun5 : run ratMath ratStr State.init
      [Event.click 0 100 50 zeroDraws, Event.timeout zeroDraws, Event.clearAll 1000,
        Event.timeout zeroDraws, Event.timeout zeroDraws] = some S5 := by
    rw [run_cons_some ratMath ratStr _ hs1, run_cons_some ratMath ratStr _ hs2,
      run_cons_some ratMath ratStr _ hs3, run_cons_some ratMath ratStr _ hs4,
      run_cons_some ratMath ratStr _ hs5]
    rfl
  have hrun7 : run ratMath ratStr State.init
      [Event.click 0 100 50 zeroDraws, Event.timeout zeroDraws, Event.clearAll 1000,
        Event.timeout zeroDraws, Event.timeout zeroDraws, Event.timeout zeroDraws,
        Event.timeout zeroDraws] = some S7 := by
    rw [run_cons_some ratMath ratStr _ hs1, run_cons_some ratMath ratStr _ hs2,
      run_cons_some ratMath ratStr _ hs3, run_cons_some ratMath ratStr _ hs4,
      run_cons_some ratMath ratStr _ hs5, run_cons_some ratMath ratStr _ hs6,
      run_cons_some ratMath ratStr _ hs7]
    rfl
  have hl5 : (S5.elements[0]?).map (fun e => e.lifecycle) =
      some [LifecycleState.Spawned, LifecycleState.Settling, LifecycleState.FadingOut,
        LifecycleState.Removed] := by
    rw [he5, he4, he2]
    simp [Callback.update, hl]
  have hl7 : (S7.elements[0]?).map (fun e => e.lifecycle) =
      some [LifecycleState.Spawned, LifecycleState.Settling, LifecycleState.FadingOut,
        LifecycleState.Removed, LifecycleState.FadingOut, LifecycleState.Removed] := by
    rw [he7, he6, he5, he4, he2]
    simp [Callback.update, hl]
  have hch5 : S5.children = [] := by
    rw [hc5, hc4, hc2]
    simp
  refine ⟨S5, S7, hrun5, hl5, ?_, ht5, ?_, hrun7, hl7, ?_⟩
  · simp [State.Attached, hch5]
  · intro hord
    obtain ⟨e5, h5, -⟩ := Option.map_eq_some'.mp hl5
    have h3 := (hord 0 e5 h5).2.2 (by simp [State.Attached, hch5])
      { fire := 6000, callback := Callback.fadeOut 0 } (by rw [ht5]; simp)
    exact h3 rfl
  · intro hord
    obtain ⟨e7, h7, hlc⟩ := Option.map_eq_some'.mp hl7
    have h1 := (hord 0 e7 h7).1.2
    rw [hlc] at h1
    revert h1
    decide

/-- C7, amended.  In every state reached from the empty page by clicks in the drawing
area and timer firings alone, with all draws in `[0, 1)` and no clear-all, each instance
has entered `Spawned`, `Settling`, `FadingOut`, `Removed` in this order, none twice and
none skipped, it is detached exactly when it has entered `Removed`, and a detached
instance has no callback pending. -/
theorem lifecycle_ordered_without_clearAll {α : Type} [LinearOrderedField α] [FloorRing α]
    (Math : MathEnv α) (str : α → String) (evs : List (Event α))
    (hev : ∀ ev ∈ evs, ev.UnitDraws ∧ ev.isClearAll = false) (s : State α)
    (hrun : run Math str State.init evs = some s) : s.LifecycleOrdered :=
  natural_ordered (natural_run Math str evs hev natural_init hrun)

/-- Witness of the amended C7: a click at time `0` and a timeout reach a state, and the
state satisfies the claim on lifecycles. -/
theorem lifecycle_ordered_without_clearAll_witness :
    ∃ s : State ℚ,
      run ratMath ratStr State.init [Event.click 0 100 50 zeroDraws, Event.timeout zeroDraws]
        = some s ∧ s.LifecycleOrdered := by
  obtain ⟨s1, h1, ht1⟩ := step_click_some ratMath ratStr State.init 0 100 50 zeroDraws
    (le_refl _) zeroDraws_unit
  obtain ⟨s2, h2⟩ := step_timeout_some ratMath ratStr s1 zeroDraws ht1
  have hrun : run ratMath ratStr State.init
      [Event.click 0 100 50 zeroDraws, Event.timeout zeroDraws] = some s2 := by
    rw [run_cons_some ratMath ratStr _ h1, run_cons_some ratMath ratStr _ h2]
    rfl
  exact ⟨s2, hrun, lifecycle_ordered_without_clearAll ratMath ratStr _
    (by
      intro ev hev
      simp only [List.mem_cons, List.mem_singleton, List.not_mem_nil, or_false] at hev
      rcases hev with rfl | rfl <;>
        exact ⟨zeroDraws_unit, rfl⟩) s2 hrun⟩

end LifecycleClaims

end EphemeralCanvas

namespace EphemeralCanvas

section SceneShape

variable {α : Type} [LinearOrderedField α]

theorem innerSize_pos {f size : α} (hs : 0 < size) (hf : 2 * f < 1) :
    0 < innerSize f size := by
  simp only [innerSize]
  nlinarith

theorem vesica_scene (size : α) (hs : 0 < size) (col : String) :
    (createVesicaPiscisSVG size col).SquareScene size (innerSize 0.18 size) := by
  have hI := innerSize_pos (f := 0.18) hs (by norm_num)
  refine ⟨hI, rfl, rfl, rfl, ?_⟩
  intro p hp cx cy r fill stroke sw hEq
  have hr : 0 < innerSize 0.18 size * 0.95 / 3 := by positivity
  simp only [createVesicaPiscisSVG, createSVGCircle, List.mem_cons, List.mem_singleton,
    List.not_mem_nil, or_false] at hp
  rcases hp with rfl | rfl <;>
  · simp only [Primitive.circle.injEq] at hEq
    rw [← hEq.2.2.1]
    exact hr

theorem egg_scene (size : α) (hs : 0 < size) (col : String) :
    (createEggOfLifeSVG size col).SquareScene size (innerSize 0.15 size) := by
  have hI := innerSize_pos (f := 0.15) hs (by norm_num)
  refine ⟨hI, rfl, rfl, rfl, ?_⟩
  intro p hp cx cy r fill stroke sw hEq
  have hr : 0 < innerSize 0.15 size / 3 := by positivity
  simp only [createEggOfLifeSVG, createSVGCircle, List.mem_cons, List.mem_singleton,
    List.not_mem_nil, or_false] at hp
  rcases hp with rfl | rfl | rfl <;>
  · simp only [Primitive.circle.injEq] at hEq
    rw [← hEq.2.2.1]
    exact hr

theorem seed_scene (Math : MathEnv α) (size : α) (hs : 0 < size) (col : String) :
    (createSeedOfLifeSVG Math size col).SquareScene size (innerSize 0.15 size) := by
  have hI := innerSize_pos (f := 0.15) hs (by norm_num)
  refine ⟨hI, rfl, rfl, rfl, ?_⟩
  intro p hp cx cy r fill stroke sw hEq
  have hr : 0 < innerSize 0.15 size / 6 := by positivity
  simp only [createSeedOfLifeSVG, createSVGCircle, List.mem_append, List.mem_singleton,
    List.mem_map, List.mem_range] at hp
  rcases hp with rfl | ⟨i, -, rfl⟩ <;>
  · simp only [Primitive.circle.injEq] at hEq
    rw [← hEq.2.2.1]
    exact hr

theorem flower_scene (Math : MathEnv α) (size : α) (hs : 0 < size) (col : String) :
    (createFlowerOfLifeSVG Math size col).SquareScene size (innerSize 0.1 size) := by
  have hI := innerSize_pos (f := 0.1) hs (by norm_num)
  refine ⟨hI, rfl, rfl, rfl, ?_⟩
  intro p hp cx cy r fill stroke sw hEq
  have hr : 0 < innerSize 0.1 size * 0.95 / 12 := by positivity
  simp only [createFlowerOfLifeSVG, createSVGCircle, List.mem_append, List.mem_singleton,
    List.mem_map, List.mem_range] at hp
  rcases hp with ((rfl | ⟨i, -, rfl⟩) | ⟨i, -, rfl⟩) | ⟨i, -, rfl⟩ <;>
  · simp only [Primitive.circle.injEq] at hEq
    rw [← hEq.2.2.1]
    exact hr

theorem metatron_scene (Math : MathEnv α) (size : α) (hs : 0 < size) (col : String) :
    (createMetatronsCubeSVG Math size col).SquareScene size (innerSize 0.25 size) := by
  have hI := innerSize_pos (f := 0.25) hs (by norm_num)
  refine ⟨hI, rfl, rfl, rfl, ?_⟩
  intro p hp cx cy r fill stroke sw hEq
  have hr : 0 < innerSize 0.25 size / 100 * 1.5 := by positivity
  simp only [createMetatronsCubeSVG, createSVGLine, createSVGCircle, List.mem_append,
    List.mem_flatMap, List.mem_map, List.mem_range, List.mem_range'_1] at hp
  rcases hp with ⟨i, -, j, -, rfl⟩ | ⟨pt, -, rfl⟩
  · exact absurd hEq (by simp)
  · simp only [Primitive.circle.injEq] at hEq
    rw [← hEq.2.2.1]
    exact hr

theorem merkaba_scene (Math : MathEnv α) (size : α) (hs : 0 < size) (col : String) :
    (createMerkabaSVG Math size col).SquareScene size (innerSize 0.15 size) := by
  have hI := innerSize_pos (f := 0.15) hs (by norm_num)
  refine ⟨hI, rfl, rfl, rfl, ?_⟩
  intro p hp cx cy r fill stroke sw hEq
  simp only [createMerkabaSVG, createSVGLine, List.mem_cons, List.mem_singleton,
    List.not_mem_nil, or_false] at hp
  rcases hp with rfl | rfl | rfl | rfl | rfl | rfl | rfl | rfl | rfl <;>
    exact absurd hEq (by simp)

/-- C11.  For each of the six builders and every `size > 0` the builder, a total
function, returns a scene whose view box is the square `0 0 side side` with
`side = size - 2 * padding > 0` (padding `0.18`, `0.15`, `0.15`, `0.10`, `0.25`, `0.15`
times `size`), whose display width and display height both equal `size`, and in which
every circle has a radius `> 0`. -/
theorem builders_square_positive (Math : MathEnv α) (size : α) (hs : 0 < size)
    (col : String) :
    (∃ scene, createVesicaPiscisSVG size col = scene ∧
      scene.SquareScene size (size - 2 * (0.18 * size))) ∧
    (∃ scene, createEggOfLifeSVG size col = scene ∧
      scene.SquareScene size (size - 2 * (0.15 * size))) ∧
    (∃ scene, createSeedOfLifeSVG Math size col = scene ∧
      scene.SquareScene size (size - 2 * (0.15 * size))) ∧
    (∃ scene, createFlowerOfLifeSVG Math size col = scene ∧
      scene.SquareScene size (size - 2 * (0.10 * size))) ∧
    (∃ scene, createMetatronsCubeSVG Math size col = scene ∧
      scene.SquareScene size (size - 2 * (0.25 * size))) ∧
    (∃ scene, createMerkabaSVG Math size col = scene ∧
      scene.SquareScene size (size - 2 * (0.15 * size))) := by
  have e10 : (0.10 : α) = 0.1 := by norm_num
  rw [innerSize_eq, innerSize_eq, e10, innerSize_eq, innerSize_eq]
  exact ⟨⟨_, rfl, vesica_scene size hs col⟩, ⟨_, rfl, egg_scene size hs col⟩,
    ⟨_, rfl, seed_scene Math size hs col⟩, ⟨_, rfl, flower_scene Math size hs col⟩,
    ⟨_, rfl, metatron_scene Math size hs col⟩, ⟨_, rfl, merkaba_scene Math size hs col⟩⟩

/-- Witness of C11 at `size = 100`: the Vesica Piscis scene has the view box
`0 0 64 64` and the Metatron's Cube scene the view box `0 0 50 50`. -/
theorem builders_square_positive_witness :
    (0 : ℚ) < 100 ∧
    (∃ scene, createVesicaPiscisSVG (100 : ℚ) "white" = scene ∧
      scene.SquareScene 100 (100 - 2 * (0.18 * 100))) ∧
    (∃ scene, createMetatronsCubeSVG ratMath (100 : ℚ) "white" = scene ∧
      scene.SquareScene 100 (100 - 2 * (0.25 * 100))) ∧
    (100 - 2 * (0.18 * 100) : ℚ) = 64 ∧ (100 - 2 * (0.25 * 100) : ℚ) = 50 :=
  ⟨by norm_num, (builders_square_positive ratMath 100 (by norm_num) "white").1,
    (builders_square_positive ratMath 100 (by norm_num) "white").2.2.2.2.1,
    by norm_num, by norm_num⟩

end SceneShape

end EphemeralCanvas

namespace EphemeralCanvas

section InstanceLifecycle

variable {α : Type} [LinearOrderedField α] [FloorRing α]

omit [LinearOrderedField α] [FloorRing α] in
theorem mem_liveInstances (s : State α) (el : ℕ) :
    el ∈ s.liveInstances ↔
      el ∈ s.children ∧ ∃ e, s.elements[el]? = some e ∧
        e.classList.contains "art-element" = true := by
  simp only [State.liveInstances, List.mem_filter]
  cases s.elements[el]? <;> simp

omit [FloorRing α] in
theorem update_classList (str : α → String) (rand : ℕ → α) (cb : Callback)
    (e : Element α) : (cb.update str rand e).classList = e.classList := by
  cases cb <;> rfl

theorem run_append (Math : MathEnv α) (str : α → String) (s : State α)
    (evs1 evs2 : List (Event α)) :
    run Math str s (evs1 ++ evs2) =
      (run Math str s evs1).bind (fun s1 => run Math str s1 evs2) := by
  induction evs1 generalizing s with
  | nil => rfl
  | cons ev evs ih =>
    simp only [List.cons_append, run]
    cases step Math str s ev with
    | none => rfl
    | some s1 => exact ih s1

/-- The shape of the result of the click handler, whatever the draws. -/
theorem onClick_shape (Math : MathEnv α) (str : α → String) {s s1 : State α}
    (clickX clickY : α) (rand : ℕ → α)
    (h : onClick Math str s clickX clickY rand = some s1) :
    s1.elements.length = s.elements.length + 1 ∧
      ∃ new, s1.timers = s.timers ++ new ∧
        ∀ tm ∈ new, tm.callback.target = s.elements.length := by
  simp only [onClick] at h
  split at h
  · exact absurd h (by simp)
  · simp only [Option.some.injEq] at h
    subst h
    refine ⟨by simp, _, rfl, ?_⟩
    intro tm htm
    simp only [List.mem_cons, List.mem_singleton, List.not_mem_nil, or_false] at htm
    rcases htm with rfl | rfl | rfl <;> rfl

omit [FloorRing α] in
theorem fresh_init : (State.init : State α).Fresh := by
  intro tm htm
  simp [State.init] at htm

/-- Every step keeps the pending callbacks on existing elements. -/
theorem fresh_step (Math : MathEnv α) (str : α → String) {s s1 : State α} (ev : Event α)
    (h : s.Fresh) (hstep : step Math str s ev = some s1) : s1.Fresh := by
  cases ev with
  | click t clickX clickY rand =>
    simp only [step] at hstep
    split_ifs at hstep
    obtain ⟨hlen, new, htm, hnew⟩ := onClick_shape Math str clickX clickY rand hstep
    intro tm hmem
    rw [htm] at hmem
    rw [hlen]
    rcases List.mem_append.mp hmem with hm | hm
    · exact Nat.lt_succ_of_lt (h tm hm)
    · rw [hnew tm hm]
      exact Nat.lt_succ_self _
  | clearAll t =>
    simp only [step] at hstep
    split_ifs at hstep
    simp only [Option.some.injEq] at hstep
    subst hstep
    intro tm hmem
    simp only [onClearAll, List.mem_append, List.mem_flatMap, List.mem_cons,
      List.mem_singleton, List.not_mem_nil, or_false] at hmem
    rcases hmem with hm | ⟨p, hp, hm⟩
    · exact h tm hm
    · have hp2 : p.2 ∈ State.liveInstances
          { now := t, elements := s.elements, children := s.children,
            timers := s.timers } := by
        obtain ⟨i, x⟩ := p
        obtain ⟨hi, hx⟩ := List.mem_enum hp
        rw [hx]
        exact List.getElem_mem hi
      obtain ⟨-, e, he, -⟩ := (mem_liveInstances _ _).mp hp2
      have hlt : p.2 < s.elements.length := by
        by_contra hge
        have := List.getElem?_eq_none (not_lt.mp hge)
        simp only at he
        rw [this] at he
        exact absurd he (by simp)
      rcases hm with rfl | rfl <;> exact hlt
  | timeout rand =>
    cases hp : popEarliest s.timers with
    | none => simp [step, hp] at hstep
    | some p =>
      obtain ⟨tm, rest⟩ := p
      obtain ⟨s2, hs2, -, ht, -, -⟩ := step_timeout_eq Math str s rand hp
      rw [hs2] at hstep
      simp only [Option.some.injEq] at hstep
      subst hstep
      obtain ⟨l1, l2, hl, hr, -, -⟩ := popEarliest_spec hp
      have hlen : s2.elements.length = s.elements.length := by
        have h3 : step Math str s (Event.timeout rand) = some s2 := hs2
        simp only [step, hp, Option.some.injEq] at h3
        rw [← h3]
        exact (runCallback_now_timers str _ rand tm.callback).2.2
      intro x hx
      rw [ht, hr] at hx
      rw [hlen]
      apply h x
      rw [hl]
      rcases List.mem_append.mp hx with hx | hx
      · exact List.mem_append_left _ hx
      · exact List.mem_append_right _ (List.mem_cons_of_mem _ hx)

theorem fresh_run (Math : MathEnv α) (str : α → String) (evs : List (Event α))
    {s s1 : State α} (h : s.Fresh) (hrun : run Math str s evs = some s1) : s1.Fresh := by
  induction evs generalizing s with
  | nil =>
    simp only [run, Option.some.injEq] at hrun
    subst hrun
    exact h
  | cons ev evs ih =>
    simp only [run] at hrun
    cases hs : step Math str s ev with
    | none => simp [hs] at hrun
    | some s2 =>
      simp only [hs] at hrun
      exact ih (fresh_step Math str ev h hs) hrun

omit [FloorRing α] in
/-- A step that leaves the timers, the opacity and the liveness of the instance alone,
and does not turn the clock back, leaves its stage alone. -/
theorem stage_same {s s1 : State α} {el : ℕ} {t0 f : α} {ft : String}
    (hlen : el < s1.elements.length) (htf : s1.timersFor el = s.timersFor el)
    (hop : s1.opacity el = s.opacity el)
    (hlive : el ∈ s1.liveInstances ↔ el ∈ s.liveInstances) (hnow : s.now ≤ s1.now)
    (h : s.InstanceStage el t0 f ft) : s1.InstanceStage el t0 f ft := by
  refine ⟨hlen, ?_⟩
  rw [htf, hop, hlive]
  rcases h.2 with ⟨a, b, c, d⟩ | ⟨a, b, c, d⟩ | ⟨a, b, c, d⟩ | ⟨a, b, d⟩
  · exact Or.inl ⟨a, b, c, le_trans d hnow⟩
  · exact Or.inr (Or.inl ⟨a, b, c, le_trans d hnow⟩)
  · exact Or.inr (Or.inr (Or.inl ⟨a, b, c, le_trans d hnow⟩))
  · exact Or.inr (Or.inr (Or.inr ⟨a, b, le_trans d hnow⟩))

/-- What a click with draws in `[0, 1)` does to an element that exists already:
nothing. -/
theorem click_other (Math : MathEnv α) (str : α → String) {s s1 : State α}
    (t clickX clickY : α) (rand : ℕ → α) (hrand : UnitDraws rand)
    (hstep : step Math str s (Event.click t clickX clickY rand) = some s1) {el : ℕ}
    (hel : el < s.elements.length) :
    el < s1.elements.length ∧ s1.timersFor el = s.timersFor el ∧
      s1.opacity el = s.opacity el ∧ (el ∈ s1.liveInstances ↔ el ∈ s.liveInstances) ∧
      s.now ≤ s1.now := by
  obtain ⟨e0, ft, f, -, -, -, -, -, hclick⟩ :=
    onClick_eq Math str { s with now := t } clickX clickY rand hrand
  simp only [step] at hstep
  split_ifs at hstep with hnow
  rw [hclick] at hstep
  simp only [Option.some.injEq] at hstep
  subst hstep
  have hne : ¬ s.elements.length = el := Nat.ne_of_gt hel
  have hne2 : ¬ el = s.elements.length := Nat.ne_of_lt hel
  have hget : (s.elements ++ [e0])[el]? = s.elements[el]? :=
    List.getElem?_append_left hel
  refine ⟨?_, ?_, ?_, ?_, hnow⟩
  · simp only [List.length_append, List.length_singleton]
    exact Nat.lt_succ_of_lt hel
  · simp [State.timersFor, List.filter_append, Callback.target, hne]
  · simp only [State.opacity, hget]
  · simp only [mem_liveInstances, hget, List.mem_append, List.mem_singleton, hne2, or_false]

/-- What a timeout does to an element other than the one its callback closes over:
nothing. -/
theorem timeout_other (Math : MathEnv α) (str : α → String) {s s1 : State α}
    (rand : ℕ → α) {tm : Timer α} {rest : List (Timer α)}
    (hp : popEarliest s.timers = some (tm, rest))
    (hstep : step Math str s (Event.timeout rand) = some s1) {el : ℕ}
    (hel : el < s.elements.length) (hne : ¬ el = tm.callback.target) :
    el < s1.elements.length ∧ s1.timersFor el = s.timersFor el ∧
      s1.opacity el = s.opacity el ∧ (el ∈ s1.liveInstances ↔ el ∈ s.liveInstances) ∧
      s.now ≤ s1.now := by
  obtain ⟨s2, hs2, hn, ht, hc, he⟩ := step_timeout_eq Math str s rand hp
  rw [hs2] at hstep
  simp only [Option.some.injEq] at hstep
  subst hstep
  obtain ⟨l1, l2, hl, hr, -, -⟩ := popEarliest_spec hp
  have hne2 : ¬ tm.callback.target = el := fun h => hne h.symm
  have hget : s2.elements[el]? = s.elements[el]? := by rw [he, if_neg hne]
  refine ⟨?_, ?_, ?_, ?_, ?_⟩
  · by_contra hge
    have h1 := List.getElem?_eq_none (not_lt.mp hge)
    rw [hget, List.getElem?_eq_getElem hel] at h1
    exact absurd h1 (by simp)
  · simp [State.timersFor, ht, hr, hl, List.filter_append, List.filter_cons, hne2]
  · simp only [State.opacity, hget]
  · simp only [mem_liveInstances, hget, hc]
    split_ifs
    · simp [List.mem_filter, hne]
    · rfl
  · rw [hn]
    exact le_max_left _ _

/-- A timeout that fires a timer of the instance moves it to the next stage. -/
theorem timeout_own (Math : MathEnv α) (str : α → String) {s s1 : State α}
    (rand : ℕ → α) (hrand : UnitDraws rand) {tm : Timer α} {rest : List (Timer α)}
    (hp : popEarliest s.timers = some (tm, rest))
    (hstep : step Math str s (Event.timeout rand) = some s1) {el : ℕ} {t0 f : α}
    {ft : String} (hf : 50 < f) (hel : el = tm.callback.target)
    (h : s.InstanceStage el t0 f ft) : s1.InstanceStage el t0 f ft := by
  obtain ⟨s2, hs2, hn, ht, hc, he⟩ := step_timeout_eq Math str s rand hp
  rw [hs2] at hstep
  simp only [Option.some.injEq] at hstep
  subst hstep
  obtain ⟨l1, l2, hl, hr, hlt, -⟩ := popEarliest_spec hp
  obtain ⟨hlen, hst⟩ := h
  obtain ⟨e, hge⟩ : ∃ e, s.elements[el]? = some e :=
    ⟨_, List.getElem?_eq_getElem hlen⟩
  have hget : s2.elements[el]? = some (tm.callback.update str rand e) := by
    rw [he, if_pos hel, hge]
    rfl
  have hlen2 : el < s2.elements.length := by
    by_contra hcon
    have h1 := List.getElem?_eq_none (not_lt.mp hcon)
    rw [hget] at h1
    exact absurd h1 (by simp)
  have htf : s2.timersFor el = l1.filter (fun x => x.callback.target = el) ++
      l2.filter (fun x => x.callback.target = el) := by
    simp only [State.timersFor, ht, hr, List.filter_append]
  have hsf : s.timersFor el = l1.filter (fun x => x.callback.target = el) ++
      tm :: l2.filter (fun x => x.callback.target = el) := by
    simp only [State.timersFor, hl, List.filter_append, List.filter_cons]
    simp [hel]
  have hlt2 : ∀ x ∈ l1.filter (fun x => x.callback.target = el), tm.fire < x.fire :=
    fun x hx => hlt x (List.mem_of_mem_filter hx)
  have hlivekeep : tm.callback.detaches = false →
      (el ∈ s2.liveInstances ↔ el ∈ s.liveInstances) := by
    intro hd
    simp only [mem_liveInstances, hget, hge, hc, hd, Option.some.injEq, exists_eq_left',
      update_classList]
    simp
  have hr0 := hrand 0
  refine ⟨hlen2, ?_⟩
  rw [htf]
  rcases hst with ⟨hp3, hop, hlive, hnow⟩ | ⟨hp3, hop, hlive, hnow⟩ |
    ⟨hp3, hop, hlive, hnow⟩ | ⟨hp3, hlive, hnow⟩
  · rw [hsf] at hp3
    obtain ⟨h1, h2, h3⟩ := head_of_strict_min hp3 hlt2 (by
      intro x hx
      simp only [List.mem_cons, List.mem_singleton, List.not_mem_nil, or_false] at hx
      rcases hx with rfl | rfl <;> simp only <;> linarith)
    have hcb : tm.callback = Callback.settle el ft := congrArg Timer.callback h2
    have hfire : tm.fire = t0 + 50 := congrArg Timer.fire h2
    right; left
    refine ⟨by rw [h1, h3]; rfl, ⟨rand 0 * 0.5 + 0.4, ?_, by linarith [hr0.1],
      by linarith [hr0.2]⟩, (hlivekeep (by rw [hcb]; rfl)).mpr hlive, ?_⟩
    · simp only [State.opacity, hget, hcb, Callback.update, Option.map_some']
    · rw [hn, hfire]
      exact le_max_right _ _
  · rw [hsf] at hp3
    obtain ⟨h1, h2, h3⟩ := head_of_strict_min hp3 hlt2 (by
      intro x hx
      simp only [List.mem_singleton] at hx
      subst hx
      simp only
      linarith)
    have hcb : tm.callback = Callback.fadeOut el := congrArg Timer.callback h2
    have hfire : tm.fire = t0 + f := congrArg Timer.fire h2
    right; right; left
    refine ⟨by rw [h1, h3]; rfl, ?_, (hlivekeep (by rw [hcb]; rfl)).mpr hlive, ?_⟩
    · simp only [State.opacity, hget, hcb, Callback.update, Option.map_some']
    · rw [hn, hfire]
      exact le_max_right _ _
  · rw [hsf] at hp3
    obtain ⟨h1, h2, h3⟩ := head_of_strict_min hp3 hlt2 (by simp)
    have hcb : tm.callback = Callback.remove el := congrArg Timer.callback h2
    have hfire : tm.fire = t0 + (f + 2000) := congrArg Timer.fire h2
    right; right; right
    refine ⟨by rw [h1, h3]; rfl, ?_, ?_⟩
    · intro hmem
      have := ((mem_liveInstances _ _).mp hmem).1
      rw [hc, hcb] at this
      simp [Callback.detaches, Callback.target] at this
    · rw [hn, hfire]
      exact le_max_right _ _
  · rw [hsf] at hp3
    simp at hp3

/-- A step other than a clear-all, with draws in `[0, 1)`, keeps the instance in one of
its four stages. -/
theorem stage_step (Math : MathEnv α) (str : α → String) {s s1 : State α} (ev : Event α)
    (hd : ev.UnitDraws) (hc : ev.isClearAll = false)
    (hstep : step Math str s ev = some s1) {el : ℕ} {t0 f : α} {ft : String} (hf : 50 < f)
    (h : s.InstanceStage el t0 f ft) : s1.InstanceStage el t0 f ft := by
  cases ev with
  | click t clickX clickY rand =>
    obtain ⟨a, b, c, d, e⟩ := click_other Math str t clickX clickY rand hd hstep h.1
    exact stage_same a b c d e h
  | clearAll t => simp [Event.isClearAll] at hc
  | timeout rand =>
    cases hp : popEarliest s.timers with
    | none => simp [step, hp] at hstep
    | some p =>
      obtain ⟨tm, rest⟩ := p
      by_cases hel : el = tm.callback.target
      · exact timeout_own Math str rand hd hp hstep hf hel h
      · obtain ⟨a, b, c, d, e⟩ := timeout_other Math str rand hp hstep h.1 hel
        exact stage_same a b c d e h

theorem stage_run (Math : MathEnv α) (str : α → String) (evs : List (Event α))
    (hev : ∀ ev ∈ evs, ev.UnitDraws ∧ ev.isClearAll = false) {s s1 : State α}
    (hrun : run Math str s evs = some s1) {el : ℕ} {t0 f : α} {ft : String} (hf : 50 < f)
    (h : s.InstanceStage el t0 f ft) : s1.InstanceStage el t0 f ft := by
  induction evs generalizing s with
  | nil =>
    simp only [run, Option.some.injEq] at hrun
    subst hrun
    exact h
  | cons ev evs ih =>
    simp only [run] at hrun
    cases hs : step Math str s ev with
    | none => simp [hs] at hrun
    | some s2 =>
      simp only [hs] at hrun
      have hev1 := hev ev (List.mem_cons_self _ _)
      exact ih (fun e he => hev e (List.mem_cons_of_mem _ he)) hrun
        (stage_step Math str ev hev1.1 hev1.2 hs hf h)

/-- As many timeouts as there are pending timers succeed and leave none pending. -/
theorem run_timeouts (Math : MathEnv α) (str : α → String) (rand : ℕ → α) (n : ℕ)
    (s : State α) (hn : s.timers.length = n) :
    ∃ s1, run Math str s (List.replicate n (Event.timeout rand)) = some s1 ∧
      s1.timers = [] := by
  induction n generalizing s with
  | zero => exact ⟨s, rfl, List.length_eq_zero.mp hn⟩
  | succ n ih =>
    have hne : s.timers ≠ [] := by
      intro h0
      rw [h0] at hn
      simp at hn
    cases hp : popEarliest s.timers with
    | none => exact absurd (popEarliest_eq_none.mp hp) hne
    | some p =>
      obtain ⟨tm, rest⟩ := p
      obtain ⟨s2, hs2, -, ht, -, -⟩ := step_timeout_eq Math str s rand hp
      obtain ⟨l1, l2, hl, hr, -, -⟩ := popEarliest_spec hp
      have hlen : s2.timers.length = n := by
        rw [ht, hr]
        rw [hl] at hn
        simp only [List.length_append, List.length_cons] at hn ⊢
        omega
      obtain ⟨s3, hs3, ht3⟩ := ih s2 hlen
      exact ⟨s3, by rw [List.replicate_succ, run_cons_some Math str _ hs2]; exact hs3, ht3⟩

/-- C5.  An instance created by a click at time `t0` in any state the page can reach,
with other instances alive and their timers pending, all draws in `[0, 1)`.  The handler
registers exactly three timers for it, due at `t0 + 50`, `t0 + f` and `t0 + f + 2000`
with `6000 ≤ f < 14000`, so `50 < f < f + 2000`, and its opacity is `0` at `t0`.  After
any further clicks and timeouts, in any order, without a clear-all, the instance is in
one of four stages, told by which of its timers are still pending: before its settle
callback the opacity is `0`; after it, not before `t0 + 50`, the opacity is in
`[0.4, 0.9)`; after its fade-out callback, not before `t0 + f`, the opacity is `0`; after
its removal callback, not before `t0 + f + 2000`, it is not a live instance.  The three
callbacks therefore fire in this order; each fires at its due time when the clock has not
passed it, and has the stated effect; and timeouts alone bring the instance to its
removal. -/
theorem instance_lifecycle (Math : MathEnv α) (str : α → String) (pre : List (Event α))
    (s : State α) (t0 clickX clickY : α) (rand : ℕ → α)
    (hpre : run Math str State.init pre = some s) (hnow : s.now ≤ t0)
    (hrand : UnitDraws rand) :
    ∃ (f : α) (ft : String) (s1 : State α),
      (6000 ≤ f ∧ f < 14000) ∧ (50 < f ∧ f < f + 2000) ∧
      step Math str s (Event.click t0 clickX clickY rand) = some s1 ∧
      s1.timers = s.timers ++
        [{ fire := t0 + 50, callback := Callback.settle s.elements.length ft },
          { fire := t0 + f, callback := Callback.fadeOut s.elements.length },
          { fire := t0 + (f + 2000), callback := Callback.remove s.elements.length }] ∧
      s1.now = t0 ∧ s1.opacity s.elements.length = some 0 ∧
      s.elements.length ∈ s1.liveInstances ∧
      ∀ (evs : List (Event α)) (s2 : State α),
        (∀ ev ∈ evs, ev.UnitDraws ∧ ev.isClearAll = false) →
        run Math str s1 evs = some s2 →
        s2.InstanceStage s.elements.length t0 f ft ∧
        (∀ (r : ℕ → α) (rest : List (Timer α)), UnitDraws r →
          (popEarliest s2.timers = some
              ({ fire := t0 + 50, callback := Callback.settle s.elements.length ft }, rest) →
            ∃ s3, step Math str s2 (Event.timeout r) = some s3 ∧
              s3.now = max s2.now (t0 + 50) ∧
              ∃ o, s3.opacity s.elements.length = some o ∧ 0.4 ≤ o ∧ o < 0.9) ∧
          (popEarliest s2.timers = some
              ({ fire := t0 + f, callback := Callback.fadeOut s.elements.length }, rest) →
            ∃ s3, step Math str s2 (Event.timeout r) = some s3 ∧
              s3.now = max s2.now (t0 + f) ∧ s3.opacity s.elements.length = some 0) ∧
          (popEarliest s2.timers = some
              ({ fire := t0 + (f + 2000), callback := Callback.remove s.elements.length },
                rest) →
            ∃ s3, step Math str s2 (Event.timeout r) = some s3 ∧
              s3.now = max s2.now (t0 + (f + 2000)) ∧
              s.elements.length ∉ s3.liveInstances)) ∧
        (∀ (r : ℕ → α), UnitDraws r →
          ∃ s3, run Math str s2 (List.replicate s2.timers.length (Event.timeout r)) = some s3 ∧
            s3.timers = [] ∧ s.elements.length ∉ s3.liveInstances) := by
  have hfresh : s.Fresh := fresh_run Math str pre fresh_init hpre
  obtain ⟨e0, ft, f, ⟨hf1, hf2⟩, -, ho, hl, hc, hclick⟩ :=
    onClick_eq Math str { s with now := t0 } clickX clickY rand hrand
  have hf50 : 50 < f := by linarith
  have hnil : s.timers.filter (fun tm => tm.callback.target = s.elements.length) = [] := by
    rw [List.filter_eq_nil_iff]
    intro x hx
    simpa using Nat.ne_of_lt (hfresh x hx)
  have hget : (s.elements ++ [e0])[s.elements.length]? = some e0 := by simp
  refine ⟨f, ft, _, ⟨hf1, hf2⟩, ⟨hf50, by linarith⟩,
    by simp only [step, if_pos hnow]; exact hclick, rfl, rfl, ?_, ?_, ?_⟩
  · simp only [State.opacity, hget, Option.map_some', ho]
  · rw [mem_liveInstances]
    exact ⟨by simp, e0, hget, by simp [hc]⟩
  · intro evs s2 hev hrun
    have hst1 : State.InstanceStage
        { now := t0, elements := s.elements ++ [e0],
          children := s.children ++ [s.elements.length],
          timers := s.timers ++
            [{ fire := t0 + 50, callback := Callback.settle s.elements.length ft },
              { fire := t0 + f, callback := Callback.fadeOut s.elements.length },
              { fire := t0 + (f + 2000),
                callback := Callback.remove s.elements.length }] }
        s.elements.length t0 f ft := by
      refine ⟨by simp, Or.inl ⟨?_, ?_, ?_, le_refl _⟩⟩
      · simp only [State.timersFor, List.filter_append, hnil, List.nil_append]
        simp [Callback.target]
      · simp only [State.opacity, hget, Option.map_some', ho]
      · rw [mem_liveInstances]
        exact ⟨by simp, e0, hget, by simp [hc]⟩
    have hst2 := stage_run Math str evs hev hrun hf50 hst1
    obtain ⟨e2, he2⟩ : ∃ e, s2.elements[s.elements.length]? = some e :=
      ⟨_, List.getElem?_eq_getElem hst2.1⟩
    refine ⟨hst2, ?_, ?_⟩
    · intro r rest hr
      have hr0 := hr 0
      refine ⟨?_, ?_, ?_⟩
      · intro hp
        obtain ⟨s3, hs3, hn, -, -, he⟩ := step_timeout_eq Math str s2 r hp
        refine ⟨s3, hs3, hn, r 0 * 0.5 + 0.4, ?_, by linarith [hr0.1], by linarith [hr0.2]⟩
        simp [State.opacity, he, he2, Callback.target, Callback.update]
      · intro hp
        obtain ⟨s3, hs3, hn, -, -, he⟩ := step_timeout_eq Math str s2 r hp
        refine ⟨s3, hs3, hn, ?_⟩
        simp [State.opacity, he, he2, Callback.target, Callback.update]
      · intro hp
        obtain ⟨s3, hs3, hn, -, hch, -⟩ := step_timeout_eq Math str s2 r hp
        refine ⟨s3, hs3, hn, ?_⟩
        intro hmem
        have := ((mem_liveInstances _ _).mp hmem).1
        rw [hch] at this
        simp [Callback.detaches, Callback.target] at this
    · intro r hr
      obtain ⟨s3, hs3, ht3⟩ := run_timeouts Math str r s2.timers.length s2 rfl
      have hrun3 : run Math str
          { now := t0, elements := s.elements ++ [e0],
            children := s.children ++ [s.elements.length],
            timers := s.timers ++
              [{ fire := t0 + 50, callback := Callback.settle s.elements.length ft },
                { fire := t0 + f, callback := Callback.fadeOut s.elements.length },
                { fire := t0 + (f + 2000),
                  callback := Callback.remove s.elements.length }] }
          (evs ++ List.replicate s2.timers.length (Event.timeout r)) = some s3 := by
        rw [run_append, hrun]
        exact hs3
      have hev3 : ∀ ev ∈ evs ++ List.replicate s2.timers.length (Event.timeout r),
          ev.UnitDraws ∧ ev.isClearAll = false := by
        intro ev hmem
        rcases List.mem_append.mp hmem with hm | hm
        · exact hev ev hm
        · rw [List.eq_of_mem_replicate hm]
          exact ⟨hr, rfl⟩
      have hst3 := stage_run Math str _ hev3 hrun3 hf50 hst1
      refine ⟨s3, hs3, ht3, ?_⟩
      have htf : s3.timersFor s.elements.length = [] := by
        simp [State.timersFor, ht3]
      rcases hst3.2 with ⟨a, -⟩ | ⟨a, -⟩ | ⟨a, -⟩ | ⟨-, b, -⟩
      · rw [htf] at a; exact absurd a (by simp)
      · rw [htf] at a; exact absurd a (by simp)
      · rw [htf] at a; exact absurd a (by simp)
      · exact b

/-- Witness of C5: a first click at time `0` leaves one live instance with three pending
timers; a second click at time `1000` creates the instance `1`, whose three timers are
appended to them, and timeouts alone bring it to its removal. -/
theorem instance_lifecycle_witness :
    ∃ (s : State ℚ) (f : ℚ) (ft : String) (s1 s3 : State ℚ),
      run ratMath ratStr State.init [Event.click 0 100 50 zeroDraws] = some s ∧
      s.now ≤ 1000 ∧ UnitDraws zeroDraws ∧
      s.elements.length = 1 ∧ s.timers.length = 3 ∧
      (6000 ≤ f ∧ f < 14000) ∧
      step ratMath ratStr s (Event.click 1000 200 80 zeroDraws) = some s1 ∧
      s1.timers = s.timers ++
        [{ fire := 1000 + 50, callback := Callback.settle s.elements.length ft },
          { fire := 1000 + f, callback := Callback.fadeOut s.elements.length },
          { fire := 1000 + (f + 2000), callback := Callback.remove s.elements.length }] ∧
      s1.opacity s.elements.length = some 0 ∧
      s1.InstanceStage s.elements.length 1000 f ft ∧
      run ratMath ratStr s1 (List.replicate s1.timers.length (Event.timeout zeroDraws)) =
        some s3 ∧
      s.elements.length ∉ s3.liveInstances := by
  obtain ⟨e0, ft0, f0, -, -, -, -, -, hclick⟩ :=
    onClick_eq ratMath ratStr { (State.init : State ℚ) with now := 0 } 100 50 zeroDraws
      zeroDraws_unit
  simp only [State.init, List.nil_append, List.length_nil, zero_add] at hclick
  have hs : step ratMath ratStr State.init (Event.click 0 100 50 zeroDraws) = some
      { now := 0, elements := [e0], children := [0],
        timers := [{ fire := 50, callback := Callback.settle 0 ft0 },
          { fire := f0, callback := Callback.fadeOut 0 },
          { fire := f0 + 2000, callback := Callback.remove 0 }] } := by
    simp only [step, State.init, le_refl, if_true]
    exact hclick
  have hpre := run_cons_some ratMath ratStr [] hs
  simp only [run] at hpre
  have hnow : (0 : ℚ) ≤ 1000 := by norm_num
  obtain ⟨f, ft, s1, hf, -, hstep, htm, -, hop, -, hall⟩ :=
    instance_lifecycle ratMath ratStr [Event.click 0 100 50 zeroDraws] _ 1000 200 80
      zeroDraws hpre hnow zeroDraws_unit
  obtain ⟨hst, -, hprog⟩ := hall [] s1 (by simp) rfl
  obtain ⟨s3, h3, -, hnl⟩ := hprog zeroDraws zeroDraws_unit
  exact ⟨_, f, ft, s1, s3, hpre, hnow, zeroDraws_unit, rfl, rfl, hf, hstep, htm, hop, hst,
    h3, hnl⟩

end InstanceLifecycle

end EphemeralCanvas
